import Mathlib

/-!
# Verification of `simulation_api::math::CatmullRomSpline`

Shallow embedding of `src/simulation/simulation_api/src/math/catmull_rom_spline.cpp`.

* `double` is modelled by `ℚ` (exact arithmetic); the section on rounded arithmetic repeats the
  constructor and `checkConnection` with the rounding of IEEE 754 binary64, which decides
  whether `equals` holds within `epsilon`.
* `size_t` values are natural numbers; the subtractions that can wrap
  (`control_points.size() - 1`, `n - 1`, `curves_.size() - 1`) are taken modulo `2^64`.
* A thrown `SplineInterpolationError` and an out-of-range `operator[]` are the two kinds of
  `Fault`; functions that can fail return `Except Fault _`.
-/

namespace simulation_api
namespace math

/-- The message `geometry_msgs::msg::Point`: three coordinates. -/
structure Point where
  x : ℚ
  y : ℚ
  z : ℚ
  deriving DecidableEq

/-- Outcomes other than a normal return.  Every constructor but the last is a
`SplineInterpolationError`, one per message thrown in `catmull_rom_spline.cpp`;
`outOfRange` stands for `operator[]` applied past the end of a vector, which throws nothing
(the behaviour is undefined). -/
inductive Fault where
  /-- Message "numbers of control points are not enough." -/
  | notEnoughControlPoints
  /-- Message "number of control points and curves does not match." -/
  | sizeMismatch
  /-- Message "start point of the curve number i does not match." -/
  | startPointMismatch (i : Nat)
  /-- Message "end point of the curve number i does not match." -/
  | endPointMismatch (i : Nat)
  /-- Message "curve size should not be zero." -/
  | zeroCurves
  /-- Message "failed to calculate curve index" -/
  | failedCurveIndex
  /-- Message "maximum 2D curventure vector size is 0." -/
  | emptyCurvature
  /-- A vector was indexed past its end. -/
  | outOfRange
  deriving DecidableEq

/-- Subtraction of `size_t` values: the result is taken modulo `2^64`. -/
def sizeSub (a b : Nat) : Nat := (a + 2 ^ 64 - b % 2 ^ 64) % 2 ^ 64

/-- The access `v[i]` of a `std::vector`. -/
def vectorAt {α : Type} (v : List α) (i : Nat) : Except Fault α :=
  match v[i]? with
  | some a => Except.ok a
  | none => Except.error Fault.outOfRange

/-- Modelled from the spec: the class `HermiteCurve` is not under `src/`; the spec describes a
segment as a per-axis cubic `a*t^3 + b*t^2 + c*t + d`.  The fields are the twelve constructor
arguments, in the order of the call `HermiteCurve(ax, bx, cx, dx, ay, by, cy, dy, az, bz, cz, dz)`. -/
structure HermiteCurve where
  ax_ : ℚ
  bx_ : ℚ
  cx_ : ℚ
  dx_ : ℚ
  ay_ : ℚ
  by_ : ℚ
  cy_ : ℚ
  dy_ : ℚ
  az_ : ℚ
  bz_ : ℚ
  cz_ : ℚ
  dz_ : ℚ
  deriving DecidableEq

/-- Modelled from the spec: `HermiteCurve::getPoint` is not under `src/`; the spec evaluates a
segment at a local parameter, per axis `a*t^3 + b*t^2 + c*t + d`.  Both call forms of the source,
`getPoint(t, false)` and `getPoint(t)`, are this evaluation. -/
def HermiteCurve.getPoint (c : HermiteCurve) (s : ℚ) : Point :=
  { x := c.ax_ * s ^ 3 + c.bx_ * s ^ 2 + c.cx_ * s + c.dx_
    y := c.ay_ * s ^ 3 + c.by_ * s ^ 2 + c.cy_ * s + c.dy_
    z := c.az_ * s ^ 3 + c.bz_ * s ^ 2 + c.cz_ * s + c.dz_ }

/-- Modelled from the spec: `HermiteCurve::getLength` and `HermiteCurve::getMaximu2DCurvature`
are not under `src/`; the spec says each segment has a precomputed arc length and maximum planar
curvature, delegated to the segment primitive.  They are parameters of the construction. -/
structure SegmentPrimitive where
  getLength : HermiteCurve → ℚ
  getMaximu2DCurvature : HermiteCurve → ℚ

/-- The class `CatmullRomSpline`: its data members. -/
structure CatmullRomSpline where
  control_points : List Point
  curves_ : List HermiteCurve
  length_list_ : List ℚ
  maximum_2d_curvatures_ : List ℚ
  total_length_ : ℚ
  deriving DecidableEq

/-- The branch `i == 0` of the constructor's loop (lines 34-59). -/
def firstCurve (cp : List Point) : Except Fault HermiteCurve := do
  let p0 ← vectorAt cp 0
  let p1 ← vectorAt cp 1
  let p2 ← vectorAt cp 2
  let ax : ℚ := 0
  let bx := p0.x - 2 * p1.x + p2.x
  let cx := -3 * p0.x + 4 * p1.x - p2.x
  let dx := 2 * p0.x
  let ay : ℚ := 0
  let by_ := p0.y - 2 * p1.y + p2.y
  let cy := -3 * p0.y + 4 * p1.y - p2.y
  let dy := 2 * p0.y
  let az : ℚ := 0
  let bz := p0.z - 2 * p1.z + p2.z
  let cz := -3 * p0.z + 4 * p1.z - p2.z
  let dz := 2 * p0.z
  pure (HermiteCurve.mk (ax * (1 / 2)) (bx * (1 / 2)) (cx * (1 / 2)) (dx * (1 / 2))
    (ay * (1 / 2)) (by_ * (1 / 2)) (cy * (1 / 2)) (dy * (1 / 2))
    (az * (1 / 2)) (bz * (1 / 2)) (cz * (1 / 2)) (dz * (1 / 2)))

/-- The branch `i == n - 1` of the constructor's loop (lines 60-85); `i - 1` does not wrap
because `i ≠ 0` here. -/
def lastCurve (cp : List Point) (i : Nat) : Except Fault HermiteCurve := do
  let pm ← vectorAt cp (i - 1)
  let pi ← vectorAt cp i
  let pp ← vectorAt cp (i + 1)
  let ax : ℚ := 0
  let bx := pm.x - 2 * pi.x + pp.x
  let cx := -1 * pm.x + pp.x
  let dx := 2 * pi.x
  let ay : ℚ := 0
  let by_ := pm.y - 2 * pi.y + pp.y
  let cy := -1 * pm.y + pp.y
  let dy := 2 * pi.y
  let az : ℚ := 0
  let bz := pm.z - 2 * pi.z + pp.z
  let cz := -1 * pm.z + pp.z
  let dz := 2 * pi.z
  pure (HermiteCurve.mk (ax * (1 / 2)) (bx * (1 / 2)) (cx * (1 / 2)) (dx * (1 / 2))
    (ay * (1 / 2)) (by_ * (1 / 2)) (cy * (1 / 2)) (dy * (1 / 2))
    (az * (1 / 2)) (bz * (1 / 2)) (cz * (1 / 2)) (dz * (1 / 2)))

/-- The final branch of the constructor's loop (lines 86-118); `i - 1` does not wrap
because `i ≠ 0` here. -/
def innerCurve (cp : List Point) (i : Nat) : Except Fault HermiteCurve := do
  let pm ← vectorAt cp (i - 1)
  let pi ← vectorAt cp i
  let pp ← vectorAt cp (i + 1)
  let pq ← vectorAt cp (i + 2)
  let ax := -1 * pm.x + 3 * pi.x - 3 * pp.x + pq.x
  let bx := 2 * pm.x - 5 * pi.x + 4 * pp.x - pq.x
  let cx := -pm.x + pp.x
  let dx := 2 * pi.x
  let ay := -1 * pm.y + 3 * pi.y - 3 * pp.y + pq.y
  let by_ := 2 * pm.y - 5 * pi.y + 4 * pp.y - pq.y
  let cy := -pm.y + pp.y
  let dy := 2 * pi.y
  let az := -1 * pm.z + 3 * pi.z - 3 * pp.z + pq.z
  let bz := 2 * pm.z - 5 * pi.z + 4 * pp.z - pq.z
  let cz := -pm.z + pp.z
  let dz := 2 * pi.z
  pure (HermiteCurve.mk (ax * (1 / 2)) (bx * (1 / 2)) (cx * (1 / 2)) (dx * (1 / 2))
    (ay * (1 / 2)) (by_ * (1 / 2)) (cy * (1 / 2)) (dy * (1 / 2))
    (az * (1 / 2)) (bz * (1 / 2)) (cz * (1 / 2)) (dz * (1 / 2)))

/-- The body of the constructor's loop for index `i` (lines 34-118). -/
def curveAt (cp : List Point) (n i : Nat) : Except Fault HermiteCurve :=
  if i = 0 then firstCurve cp
  else if i = sizeSub n 1 then lastCurve cp i
  else innerCurve cp i

/-- The loop `for (size_t i = 0; i < n; i++)` of the constructor (line 33), started at index `i`
with `k = n - i` iterations left; the result lists the curves in the order of `emplace_back`. -/
def buildCurves (cp : List Point) (n : Nat) : Nat → Nat → Except Fault (List HermiteCurve)
  | 0, _ => pure []
  | k + 1, i => do
    let c ← curveAt cp n i
    let cs ← buildCurves cp n k (i + 1)
    pure (c :: cs)

/-- The constant `std::numeric_limits<double>::epsilon()`. -/
def epsilon : ℚ := 1 / 2 ^ 52

/-- The method `CatmullRomSpline::equals` (lines 190-203). -/
def equals (p0 p1 : Point) : Bool :=
  if |p0.x - p1.x| > epsilon then false
  else if |p0.y - p1.y| > epsilon then false
  else if |p0.z - p1.z| > epsilon then false
  else true

/-- The loop of `checkConnection` (lines 169-183), started at index `i` with `k` iterations
left. -/
def checkConnectionLoop (sp : CatmullRomSpline) : Nat → Nat → Except Fault Unit
  | 0, _ => pure ()
  | k + 1, i => do
    let control_point0 ← vectorAt sp.control_points i
    let control_point1 ← vectorAt sp.control_points (i + 1)
    let curve ← vectorAt sp.curves_ i
    let p0 := curve.getPoint 0
    let p1 := curve.getPoint 1
    if equals control_point0 p0 && equals control_point1 p1 then
      checkConnectionLoop sp k (i + 1)
    else if !equals control_point0 p0 then
      throw (Fault.startPointMismatch i)
    else if !equals control_point1 p1 then
      throw (Fault.endPointMismatch i)
    else
      checkConnectionLoop sp k (i + 1)

/-- The method `CatmullRomSpline::checkConnection` (lines 164-188). -/
def CatmullRomSpline.checkConnection (sp : CatmullRomSpline) : Except Fault Bool :=
  if sp.control_points.length ≠ sp.curves_.length + 1 then
    throw Fault.sizeMismatch
  else do
    checkConnectionLoop sp sp.curves_.length 0
    if sp.curves_.length = 0 then
      throw Fault.zeroCurves
    else
      pure true

/-- The loop of lines 124-127: `total_length_ = total_length_ + length`, from `0`. -/
def sumLengths (length_list : List ℚ) : ℚ :=
  length_list.foldl (fun total length => total + length) 0

/-- The data members as the constructor has filled them when it calls `checkConnection`
(lines 27 and 120-127): the curves of the loop, their lengths and curvatures, and the total. -/
def CatmullRomSpline.members (prim : SegmentPrimitive) (control_points : List Point)
    (curves : List HermiteCurve) : CatmullRomSpline :=
  { control_points := control_points
    curves_ := curves
    length_list_ := curves.map prim.getLength
    maximum_2d_curvatures_ := curves.map prim.getMaximu2DCurvature
    total_length_ := sumLengths (curves.map prim.getLength) }

/-- The constructor `CatmullRomSpline::CatmullRomSpline` (lines 26-129). -/
def CatmullRomSpline.new (prim : SegmentPrimitive) (control_points : List Point) :
    Except Fault CatmullRomSpline :=
  let n := sizeSub control_points.length 1
  if n ≤ 1 then
    throw Fault.notEnoughControlPoints
  else do
    let curves ← buildCurves control_points n n 0
    let sp := CatmullRomSpline.members prim control_points curves
    let _ ← sp.checkConnection
    pure sp

/-- The loop of `getCurveIndexAndS` (lines 140-146), started at index `i` with `k` iterations
left and the running sum `current_s`; leaving the loop reaches the `throw` of line 147. -/
def curveIndexLoop (length_list : List ℚ) (s : ℚ) : Nat → Nat → ℚ → Except Fault (Nat × ℚ)
  | 0, _, _ => throw Fault.failedCurveIndex
  | k + 1, i, current_s => do
    let prev_s := current_s
    let length ← vectorAt length_list i
    let current_s := current_s + length
    if prev_s ≤ s ∧ s < current_s then
      pure (i, s - prev_s)
    else
      curveIndexLoop length_list s k (i + 1) current_s

/-- The method `CatmullRomSpline::getCurveIndexAndS` (lines 131-148). -/
def CatmullRomSpline.getCurveIndexAndS (sp : CatmullRomSpline) (s : ℚ) : Except Fault (Nat × ℚ) :=
  if s < 0 then
    pure (0, s)
  else if s > sp.total_length_ then
    pure (sizeSub sp.curves_.length 1, s - sp.total_length_)
  else
    curveIndexLoop sp.length_list_ s sp.curves_.length 0 0

/-- The method `CatmullRomSpline::getPoint` (lines 150-154). -/
def CatmullRomSpline.getPoint (sp : CatmullRomSpline) (s : ℚ) : Except Fault Point := do
  let index_and_s ← sp.getCurveIndexAndS s
  let curve ← vectorAt sp.curves_ index_and_s.1
  pure (curve.getPoint index_and_s.2)

/-- The algorithm `std::max_element` on a non-empty range: the first greatest element, where
`largest` is the greatest seen so far. -/
def max_element : ℚ → List ℚ → ℚ
  | largest, [] => largest
  | largest, x :: rest => if largest < x then max_element x rest else max_element largest rest

/-- The method `CatmullRomSpline::getMaximum2DCurventure` (lines 156-162). -/
def CatmullRomSpline.getMaximum2DCurventure (sp : CatmullRomSpline) : Except Fault ℚ :=
  match sp.maximum_2d_curvatures_ with
  | [] => throw Fault.emptyCurvature
  | first :: rest => pure (max_element first rest)

/-- The sum of the first `k` segment lengths, `cumulative(k)`. -/
def cumulative (length_list : List ℚ) (k : Nat) : ℚ := (length_list.take k).sum

/-- A segment primitive that reports length `1` and curvature `0` for every curve (exact for
unit-speed straight segments). -/
def unitPrimitive : SegmentPrimitive := ⟨fun _ => 1, fun _ => 0⟩

/-- A segment primitive that reports length `0` and curvature `0` for every curve (exact for
constant segments). -/
def zeroPrimitive : SegmentPrimitive := ⟨fun _ => 0, fun _ => 0⟩

/-- The invariants of a spline built by the constructor. -/
structure Constructed (prim : SegmentPrimitive) (cp : List Point) (sp : CatmullRomSpline) :
    Prop where
  points : sp.control_points = cp
  size : sp.curves_.length + 1 = cp.length
  two : 2 ≤ sp.curves_.length
  bound : sp.curves_.length < 2 ^ 64
  lengths : sp.length_list_ = sp.curves_.map prim.getLength
  curvatures : sp.maximum_2d_curvatures_ = sp.curves_.map prim.getMaximu2DCurvature
  total : sp.total_length_ = sumLengths sp.length_list_
  joins : ∀ i, i < sp.curves_.length → ∃ c p q, sp.curves_[i]? = some c ∧ cp[i]? = some p ∧
    cp[i + 1]? = some q ∧ c.getPoint 0 = p ∧ c.getPoint 1 = q
  connected : sp.checkConnection = Except.ok true

/-- A straight segment in the plane `z = 0` traversed at unit speed: no quadratic or cubic
coefficient, velocity `(cx_, cy_, 0)` of norm `1`. -/
def HermiteCurve.IsPlanarUnitLine (c : HermiteCurve) : Prop :=
  c.ax_ = 0 ∧ c.bx_ = 0 ∧ c.ay_ = 0 ∧ c.by_ = 0 ∧ c.az_ = 0 ∧ c.bz_ = 0 ∧ c.cz_ = 0 ∧
    c.cx_ ^ 2 + c.cy_ ^ 2 = 1

/-- Modelled from the spec: `getLength` and `getMaximu2DCurvature` are not under `src/`; the
spec calls their values the arc length and the maximum planar curvature of the segment.  On a
unit-speed straight segment over the parameter range `[0, 1]` these are `1` and `0`. -/
def SegmentPrimitive.ExactOnUnitLines (prim : SegmentPrimitive) : Prop :=
  ∀ c : HermiteCurve, c.IsPlanarUnitLine → prim.getLength c = 1 ∧ prim.getMaximu2DCurvature c = 0

/-! ## Concrete inputs -/

/-- The waypoints `(0,0,0), (1,0,0), (2,0,0)`. -/
def straightLine : List Point := [⟨0, 0, 0⟩, ⟨1, 0, 0⟩, ⟨2, 0, 0⟩]

/-- Three coincident waypoints `(0,0,0)`. -/
def coincident : List Point := [⟨0, 0, 0⟩, ⟨0, 0, 0⟩, ⟨0, 0, 0⟩]

/-- The spline the constructor builds from `straightLine` when each segment has length `1`. -/
def straightSpline : CatmullRomSpline :=
  { control_points := straightLine
    curves_ := [⟨0, 0, 1, 0, 0, 0, 0, 0, 0, 0, 0, 0⟩, ⟨0, 0, 1, 1, 0, 0, 0, 0, 0, 0, 0, 0⟩]
    length_list_ := [1, 1]
    maximum_2d_curvatures_ := [0, 0]
    total_length_ := 2 }

/-- The spline the constructor builds from `coincident`: two constant segments of length `0`. -/
def coincidentSpline : CatmullRomSpline :=
  { control_points := coincident
    curves_ := [⟨0, 0, 0, 0, 0, 0, 0, 0, 0, 0, 0, 0⟩, ⟨0, 0, 0, 0, 0, 0, 0, 0, 0, 0, 0, 0⟩]
    length_list_ := [0, 0]
    maximum_2d_curvatures_ := [0, 0]
    total_length_ := 0 }

/-- Modelled from the spec: the class `HermiteCurve` is not under `src/`; a segment is a
per-axis cubic `a*t^3 + b*t^2 + c*t + d`, whose derivative with respect to the local parameter
is `3*a*t^2 + 2*b*t + c`. -/
def HermiteCurve.derivative (c : HermiteCurve) (t : ℚ) : Point :=
  { x := 3 * c.ax_ * t ^ 2 + 2 * c.bx_ * t + c.cx_
    y := 3 * c.ay_ * t ^ 2 + 2 * c.by_ * t + c.cy_
    z := 3 * c.az_ * t ^ 2 + 2 * c.bz_ * t + c.cz_ }

-- Equality of results is decidable, so that a result on concrete waypoints can be evaluated.
deriving instance DecidableEq for Except

namespace binary64

/-- A finite `double`: the value `mantissa * 2 ^ exponent`.  The results of the operations
below have a mantissa of at most 53 bits. -/
structure Double where
  mantissa : Int
  exponent : Int
  deriving DecidableEq

/-- The rational value of a `double`. -/
def Double.toRat (d : Double) : ℚ := d.mantissa * 2 ^ d.exponent

/-- The number of low bits a magnitude has beyond 53 bits; `fuel` bounds the recursion and any
`fuel ≥ magnitude` is enough. -/
def excessBits : Nat → Nat → Nat
  | 0, _ => 0
  | fuel + 1, magnitude => if magnitude < 2 ^ 53 then 0 else excessBits fuel (magnitude / 2) + 1

/-- Rounding of a magnitude to 53 significant bits, to nearest with ties to even: the result is
the pair of the rounded magnitude and the number of bits dropped. -/
def roundNearestEven (magnitude : Nat) : Nat × Nat :=
  let shift := excessBits magnitude magnitude
  if shift = 0 then (magnitude, 0)
  else
    let quotient := magnitude / 2 ^ shift
    let remainder := magnitude % 2 ^ shift
    let halfway := 2 ^ (shift - 1)
    if remainder > halfway ∨ (remainder = halfway ∧ quotient % 2 = 1) then (quotient + 1, shift)
    else (quotient, shift)

/-- The `double` nearest to `mantissa * 2 ^ exponent`. -/
def Double.round (mantissa exponent : Int) : Double :=
  let r := roundNearestEven mantissa.natAbs
  { mantissa := mantissa.sign * r.1, exponent := exponent + r.2 }

/-- The operator `+` of `double`: the exact sum, rounded. -/
def Double.add (a b : Double) : Double :=
  let e := if a.exponent ≤ b.exponent then a.exponent else b.exponent
  Double.round
    (a.mantissa * ((2 ^ (a.exponent - e).toNat : Nat) : Int) +
      b.mantissa * ((2 ^ (b.exponent - e).toNat : Nat) : Int)) e

/-- The unary operator `-` of `double`. -/
def Double.neg (a : Double) : Double := { mantissa := -a.mantissa, exponent := a.exponent }

/-- The operator `-` of `double`: the exact difference, rounded. -/
def Double.sub (a b : Double) : Double := Double.add a (Double.neg b)

/-- The operator `*` of `double`: the exact product, rounded. -/
def Double.mul (a b : Double) : Double :=
  Double.round (a.mantissa * b.mantissa) (a.exponent + b.exponent)

/-- The function `std::pow` with a small whole exponent: the exact power, rounded.  At the
bases `0` and `1`, the only ones `checkConnection` uses, the power is exact. -/
def Double.pow (a : Double) (k : Nat) : Double :=
  Double.round (a.mantissa ^ k) (a.exponent * k)

/-- The function `std::abs` of `double`. -/
def Double.abs (a : Double) : Double := { mantissa := a.mantissa.natAbs, exponent := a.exponent }

/-- The operator `>` of `double`. -/
def Double.gt (a b : Double) : Bool :=
  let e := if a.exponent ≤ b.exponent then a.exponent else b.exponent
  decide (b.mantissa * ((2 ^ (b.exponent - e).toNat : Nat) : Int) <
    a.mantissa * ((2 ^ (a.exponent - e).toNat : Nat) : Int))

instance : Add Double := ⟨Double.add⟩

instance : Sub Double := ⟨Double.sub⟩

instance : Mul Double := ⟨Double.mul⟩

instance : Neg Double := ⟨Double.neg⟩

instance (n : Nat) : OfNat Double n := ⟨Double.round n 0⟩

/-- The literal `0.5`. -/
def half : Double := ⟨1, -1⟩

/-- The message `geometry_msgs::msg::Point` with `double` coordinates. -/
structure Point where
  x : Double
  y : Double
  z : Double
  deriving DecidableEq

/-- Modelled from the spec: the class `HermiteCurve` is not under `src/`; its twelve
coefficients, as `double`. -/
structure HermiteCurve where
  ax_ : Double
  bx_ : Double
  cx_ : Double
  dx_ : Double
  ay_ : Double
  by_ : Double
  cy_ : Double
  dy_ : Double
  az_ : Double
  bz_ : Double
  cz_ : Double
  dz_ : Double
  deriving DecidableEq

/-- Modelled from the spec: `HermiteCurve::getPoint` is not under `src/`; per axis
`a*t^3 + b*t^2 + c*t + d`, evaluated from left to right with the powers taken by `std::pow`. -/
def HermiteCurve.getPoint (c : HermiteCurve) (s : Double) : Point :=
  { x := c.ax_ * Double.pow s 3 + c.bx_ * Double.pow s 2 + c.cx_ * s + c.dx_
    y := c.ay_ * Double.pow s 3 + c.by_ * Double.pow s 2 + c.cy_ * s + c.dy_
    z := c.az_ * Double.pow s 3 + c.bz_ * Double.pow s 2 + c.cz_ * s + c.dz_ }

/-- Modelled from the spec: `HermiteCurve::getLength` and `HermiteCurve::getMaximu2DCurvature`
are not under `src/`; they are parameters of the construction. -/
structure SegmentPrimitive where
  getLength : HermiteCurve → Double
  getMaximu2DCurvature : HermiteCurve → Double

/-- The class `CatmullRomSpline`: its data members. -/
structure CatmullRomSpline where
  control_points : List Point
  curves_ : List HermiteCurve
  length_list_ : List Double
  maximum_2d_curvatures_ : List Double
  total_length_ : Double

/-- The branch `i == 0` of the constructor's loop (lines 34-59). -/
def firstCurve (cp : List Point) : Except Fault HermiteCurve := do
  let p0 ← vectorAt cp 0
  let p1 ← vectorAt cp 1
  let p2 ← vectorAt cp 2
  let ax : Double := 0
  let bx := p0.x - 2 * p1.x + p2.x
  let cx := -3 * p0.x + 4 * p1.x - p2.x
  let dx := 2 * p0.x
  let ay : Double := 0
  let by_ := p0.y - 2 * p1.y + p2.y
  let cy := -3 * p0.y + 4 * p1.y - p2.y
  let dy := 2 * p0.y
  let az : Double := 0
  let bz := p0.z - 2 * p1.z + p2.z
  let cz := -3 * p0.z + 4 * p1.z - p2.z
  let dz := 2 * p0.z
  pure (HermiteCurve.mk (ax * half) (bx * half) (cx * half) (dx * half)
    (ay * half) (by_ * half) (cy * half) (dy * half)
    (az * half) (bz * half) (cz * half) (dz * half))

/-- The branch `i == n - 1` of the constructor's loop (lines 60-85). -/
def lastCurve (cp : List Point) (i : Nat) : Except Fault HermiteCurve := do
  let pm ← vectorAt cp (i - 1)
  let pi ← vectorAt cp i
  let pp ← vectorAt cp (i + 1)
  let ax : Double := 0
  let bx := pm.x - 2 * pi.x + pp.x
  let cx := -1 * pm.x + pp.x
  let dx := 2 * pi.x
  let ay : Double := 0
  let by_ := pm.y - 2 * pi.y + pp.y
  let cy := -1 * pm.y + pp.y
  let dy := 2 * pi.y
  let az : Double := 0
  let bz := pm.z - 2 * pi.z + pp.z
  let cz := -1 * pm.z + pp.z
  let dz := 2 * pi.z
  pure (HermiteCurve.mk (ax * half) (bx * half) (cx * half) (dx * half)
    (ay * half) (by_ * half) (cy * half) (dy * half)
    (az * half) (bz * half) (cz * half) (dz * half))

/-- The final branch of the constructor's loop (lines 86-118). -/
def innerCurve (cp : List Point) (i : Nat) : Except Fault HermiteCurve := do
  let pm ← vectorAt cp (i - 1)
  let pi ← vectorAt cp i
  let pp ← vectorAt cp (i + 1)
  let pq ← vectorAt cp (i + 2)
  let ax := -1 * pm.x + 3 * pi.x - 3 * pp.x + pq.x
  let bx := 2 * pm.x - 5 * pi.x + 4 * pp.x - pq.x
  let cx := -pm.x + pp.x
  let dx := 2 * pi.x
  let ay := -1 * pm.y + 3 * pi.y - 3 * pp.y + pq.y
  let by_ := 2 * pm.y - 5 * pi.y + 4 * pp.y - pq.y
  let cy := -pm.y + pp.y
  let dy := 2 * pi.y
  let az := -1 * pm.z + 3 * pi.z - 3 * pp.z + pq.z
  let bz := 2 * pm.z - 5 * pi.z + 4 * pp.z - pq.z
  let cz := -pm.z + pp.z
  let dz := 2 * pi.z
  pure (HermiteCurve.mk (ax * half) (bx * half) (cx * half) (dx * half)
    (ay * half) (by_ * half) (cy * half) (dy * half)
    (az * half) (bz * half) (cz * half) (dz * half))

/-- The body of the constructor's loop for index `i` (lines 34-118). -/
def curveAt (cp : List Point) (n i : Nat) : Except Fault HermiteCurve :=
  if i = 0 then firstCurve cp
  else if i = sizeSub n 1 then lastCurve cp i
  else innerCurve cp i

/-- The loop `for (size_t i = 0; i < n; i++)` of the constructor (line 33), started at index `i`
with `k = n - i` iterations left. -/
def buildCurves (cp : List Point) (n : Nat) : Nat → Nat → Except Fault (List HermiteCurve)
  | 0, _ => pure []
  | k + 1, i => do
    let c ← curveAt cp n i
    let cs ← buildCurves cp n k (i + 1)
    pure (c :: cs)

/-- The constant `std::numeric_limits<double>::epsilon()`, `2^-52`. -/
def epsilon : Double := ⟨1, -52⟩

/-- The method `CatmullRomSpline::equals` (lines 190-203). -/
def equals (p0 p1 : Point) : Bool :=
  if Double.gt (Double.abs (p0.x - p1.x)) epsilon then false
  else if Double.gt (Double.abs (p0.y - p1.y)) epsilon then false
  else if Double.gt (Double.abs (p0.z - p1.z)) epsilon then false
  else true

/-- The loop of `checkConnection` (lines 169-183), started at index `i` with `k` iterations
left. -/
def checkConnectionLoop (sp : CatmullRomSpline) : Nat → Nat → Except Fault Unit
  | 0, _ => pure ()
  | k + 1, i => do
    let control_point0 ← vectorAt sp.control_points i
    let control_point1 ← vectorAt sp.control_points (i + 1)
    let curve ← vectorAt sp.curves_ i
    let p0 := curve.getPoint 0
    let p1 := curve.getPoint 1
    if equals control_point0 p0 && equals control_point1 p1 then
      checkConnectionLoop sp k (i + 1)
    else if !equals control_point0 p0 then
      throw (Fault.startPointMismatch i)
    else if !equals control_point1 p1 then
      throw (Fault.endPointMismatch i)
    else
      checkConnectionLoop sp k (i + 1)

/-- The method `CatmullRomSpline::checkConnection` (lines 164-188). -/
def CatmullRomSpline.checkConnection (sp : CatmullRomSpline) : Except Fault Bool :=
  if sp.control_points.length ≠ sp.curves_.length + 1 then
    throw Fault.sizeMismatch
  else do
    checkConnectionLoop sp sp.curves_.length 0
    if sp.curves_.length = 0 then
      throw Fault.zeroCurves
    else
      pure true

/-- The loop of lines 124-127: `total_length_ = total_length_ + length`, from `0`. -/
def sumLengths (length_list : List Double) : Double :=
  length_list.foldl (fun total length => total + length) 0

/-- The data members as the constructor has filled them when it calls `checkConnection`
(lines 27 and 120-127). -/
def CatmullRomSpline.members (prim : SegmentPrimitive) (control_points : List Point)
    (curves : List HermiteCurve) : CatmullRomSpline :=
  { control_points := control_points
    curves_ := curves
    length_list_ := curves.map prim.getLength
    maximum_2d_curvatures_ := curves.map prim.getMaximu2DCurvature
    total_length_ := sumLengths (curves.map prim.getLength) }

/-- The constructor `CatmullRomSpline::CatmullRomSpline` (lines 26-129). -/
def CatmullRomSpline.new (prim : SegmentPrimitive) (control_points : List Point) :
    Except Fault CatmullRomSpline :=
  let n := sizeSub control_points.length 1
  if n ≤ 1 then
    throw Fault.notEnoughControlPoints
  else do
    let curves ← buildCurves control_points n n 0
    let sp := CatmullRomSpline.members prim control_points curves
    let _ ← sp.checkConnection
    pure sp

/-- The same point with its coordinates as rationals. -/
def Point.toExact (p : Point) : math.Point := ⟨p.x.toRat, p.y.toRat, p.z.toRat⟩

/-- The `double` nearest to `100.1`, `0x1.9066666666666p+6`. -/
def x100_1 : Double := ⟨3521955646092083, -45⟩

/-- The `double` nearest to `101.3`, `0x1.9533333333333p+6`. -/
def x101_3 : Double := ⟨7128353785197363, -46⟩

/-- The `double` nearest to `102.7`, `0x1.9accccccccccdp+6`. -/
def x102_7 : Double := ⟨7226870027046093, -46⟩

/-- The waypoints `(100.1,0,0), (101.3,0,0), (102.7,0,0)`, as a program holds them. -/
def roundedWaypoints : List Point := [⟨x100_1, 0, 0⟩, ⟨x101_3, 0, 0⟩, ⟨x102_7, 0, 0⟩]

/-- The two curves the constructor computes from `roundedWaypoints`: per axis the
coefficients `a, b, c, d` after the multiplication by `0.5`, about `0, 0.1, 1.1, 100.1` and
`0, 0.1, 1.3, 101.3` in `x`. -/
def roundedCurves : List HermiteCurve :=
  [⟨⟨0, -1⟩, ⟨14073748835533, -47⟩, ⟨154811237190863, -47⟩, ⟨7043911292184166, -46⟩,
    ⟨0, -1⟩, ⟨0, -1⟩, ⟨0, -1⟩, ⟨0, -1⟩, ⟨0, -1⟩, ⟨0, -1⟩, ⟨0, -1⟩, ⟨0, -1⟩⟩,
   ⟨⟨0, -1⟩, ⟨14073748835533, -47⟩, ⟨182958734861927, -47⟩, ⟨7128353785197363, -46⟩,
    ⟨0, -1⟩, ⟨0, -1⟩, ⟨0, -1⟩, ⟨0, -1⟩, ⟨0, -1⟩, ⟨0, -1⟩, ⟨0, -1⟩, ⟨0, -1⟩⟩]

end binary64

end math
end simulation_api

/-!
# The condition and priority syntax of `openscenario_interpreter`

Shallow embedding of `syntax/user_defined_value_condition.hpp` and `syntax/priority.hpp`.
A thrown exception is an `Error`; the attributes `name`, `value` and `rule` are taken as already
read by `readAttribute`.
-/

namespace openscenario_interpreter

/-- The exceptions thrown in `user_defined_value_condition.hpp` and `priority.hpp`:
the interpreter errors `SyntaxError` and `ImplementationFault`, and `std::out_of_range`, which
`std::unordered_map::at` throws for a key that is not in the map. -/
inductive Error where
  | SyntaxError
  | ImplementationFault
  | out_of_range
  deriving DecidableEq

/-- Modelled from the spec: `rule.hpp` is not under `src/`; the spec speaks of a comparison rule
applied to the observed value and the reference value, and the header of
`user_defined_value_condition.hpp` lists the relations bigger than, smaller than and equal to. -/
inductive Rule where
  | greaterThan
  | lessThan
  | equalTo
  deriving DecidableEq

/-- Modelled from the spec: the call `compare(lhs, rhs)` of a `Rule` on two strings, with the
result of `asBoolean`. -/
def Rule.compare (rule : Rule) (lhs rhs : String) : Bool :=
  match rule with
  | Rule.greaterThan => decide (rhs < lhs)
  | Rule.lessThan => decide (lhs < rhs)
  | Rule.equalTo => decide (lhs = rhs)

/-- Modelled from the spec: the textual form of a `Rule`, as written by `<<`. -/
def Rule.text (rule : Rule) : String :=
  match rule with
  | Rule.greaterThan => "greaterThan"
  | Rule.lessThan => "lessThan"
  | Rule.equalTo => "equalTo"

/-- Modelled from the spec: `evaluateCurrentState` is not under `src/`; it is the external state
provider, which gives for a subject identifier its current lifecycle-state label.  A value of
this type is the provider as it answers at the time of one call. -/
abbrev StateProvider := String → String

/-- The atom `.` of the ECMAScript grammar of `std::regex` on `char`: any character but the
line terminators `\n` and `\r`. -/
def anyCharacter (c : Char) : Bool := c ≠ Char.ofNat 10 && c ≠ Char.ofNat 13

/-- The result of a successful match: the sub-matches `str(1)` and `str(2)`. -/
structure smatch where
  str1 : String
  str2 : String
  deriving DecidableEq

/-- The call `std::regex_match(name, result, pattern)` for the pattern `([^\.]+)\.(.+)` of
line 59.  The first group holds no dot and is followed by a dot, so it is the text before the
first dot of `name`; the second group is all the text after that dot. -/
def regex_match (name : String) : Option smatch :=
  let group1 := name.toList.takeWhile (fun c => c ≠ '.')
  match name.toList.dropWhile (fun c => c ≠ '.') with
  | [] => none
  | _ :: group2 =>
    if group1 ≠ [] ∧ group2 ≠ [] ∧ group2.all anyCharacter = true then
      some { str1 := String.mk group1, str2 := String.mk group2 }
    else
      none

/-- The struct `UserDefinedValueCondition` (lines 41-51).  The member `evaluateValue`, a
`std::function<std::string()>`, takes the state provider it calls as an argument. -/
structure UserDefinedValueCondition where
  name : String
  value : String
  compare : Rule
  last_checked_value : String
  evaluateValue : StateProvider → String

/-- The map `dispatch` of lines 62-64: one entry, `currentState`, whose function calls
`evaluateCurrentState(result.str(1))`. -/
def dispatch (result : smatch) : List (String × (StateProvider → String)) :=
  [("currentState", fun evaluateCurrentState => evaluateCurrentState result.str1)]

/-- The call `dispatch.at(key)` of `std::unordered_map`. -/
def mapAt (map : List (String × (StateProvider → String))) (key : String) :
    Except Error (StateProvider → String) :=
  match map.lookup key with
  | some f => Except.ok f
  | none => Except.error Error.out_of_range

/-- The constructor of `UserDefinedValueCondition` (lines 53-69), from the three attributes. -/
def UserDefinedValueCondition.new (name value : String) (compare : Rule) :
    Except Error UserDefinedValueCondition :=
  match regex_match name with
  | some result => do
    let evaluateValue ← mapAt (dispatch result) result.str2
    pure { name := name, value := value, compare := compare, last_checked_value := "",
           evaluateValue := evaluateValue }
  | none => throw Error.SyntaxError

/-- The method `evaluate` (line 71): the returned boolean and the condition after the call. -/
def UserDefinedValueCondition.evaluate (c : UserDefinedValueCondition)
    (evaluateCurrentState : StateProvider) : Bool × UserDefinedValueCondition :=
  let assigned := { c with last_checked_value := c.evaluateValue evaluateCurrentState }
  (assigned.compare.compare assigned.last_checked_value assigned.value, assigned)

/-- The method `description` (lines 73-81); it is `const`. -/
def UserDefinedValueCondition.description (c : UserDefinedValueCondition) : String :=
  "Is the " ++ c.name ++ " (= " ++ c.last_checked_value ++ ") is " ++ c.compare.text ++ " " ++
    c.value ++ "?"

/-- The enumeration `Priority::value_type` (lines 46-59). -/
inductive Priority.value_type where
  | overwrite
  | skip
  | parallel
  deriving DecidableEq

/-- The struct `Priority` (lines 44-69). -/
structure Priority where
  value : Priority.value_type
  deriving DecidableEq

/-- The operator `>>` for `Priority` (lines 71-105), on the token `buffer` that `is >> buffer`
has read: the priority after the call, and the exception if one is thrown. -/
def Priority.extract (buffer : String) (priority : Priority) : Priority × Except Error Unit :=
  if buffer = "overwrite" then
    ({ priority with value := Priority.value_type.overwrite }, Except.ok ())
  else if buffer = "skip" then
    (priority, Except.error Error.ImplementationFault)
  else if buffer = "parallel" then
    (priority, Except.error Error.ImplementationFault)
  else
    (priority, Except.error Error.SyntaxError)

/-- The name `vehicle.` followed by a line feed and `currentState`. -/
def nameWithLineFeed : String :=
  "vehicle." ++ String.singleton (Char.ofNat 10) ++ "currentState"

/-! ## The arbitration pass of a scope -/

/-- Modelled from the spec: the event state machine is not under `src/`; the spec gives every
event one of the states idle, triggered, running and complete. -/
inductive EventState where
  | idle
  | triggered
  | running
  | complete
  deriving DecidableEq

/-- Modelled from the spec: the event class is not under `src/`; an event has an identity, a
priority, a start condition (here its value in the current tick) and a current state. -/
structure Event where
  name : String
  priority : Priority.value_type
  start_condition : Bool
  state : EventState
  deriving DecidableEq

/-- The event `e` moved to the state `s`. -/
def Event.withState (e : Event) (s : EventState) : Event := { e with state := s }

/-- Modelled from the spec: step 1 of a tick, which is not under `src/`: every idle event whose
start condition is true is marked triggered. -/
def markTriggered (scope : List Event) : List Event :=
  scope.map fun e =>
    if e.state = EventState.idle ∧ e.start_condition = true then
      e.withState EventState.triggered
    else e

/-- Whether an event of the scope other than the one declared at position `i` is running. -/
def otherRunning (scope : List Event) (i : Nat) : Bool :=
  (scope.eraseIdx i).any fun e => decide (e.state = EventState.running)

/-- Every running event of the scope forced to complete. -/
def stopRunning (scope : List Event) : List Event :=
  scope.map fun e => if e.state = EventState.running then e.withState EventState.complete else e

/-- Modelled from the spec: step 2 of a tick for the event declared at position `i`, which is
not under `src/`.  A triggered event with priority overwrite forces every running event of the
scope to complete and becomes running; with priority skip it stays idle if another event of the
scope is running and becomes running otherwise; with priority parallel it becomes running. -/
def arbitrate (scope : List Event) (i : Nat) : List Event :=
  match scope[i]? with
  | none => scope
  | some e =>
    if e.state = EventState.triggered then
      match e.priority with
      | Priority.value_type.overwrite =>
        (stopRunning scope).set i (e.withState EventState.running)
      | Priority.value_type.skip =>
        if otherRunning scope i then scope.set i (e.withState EventState.idle)
        else scope.set i (e.withState EventState.running)
      | Priority.value_type.parallel => scope.set i (e.withState EventState.running)
    else scope

/-- Modelled from the spec: the arbitration of the events declared at positions `0` to `k - 1`,
in declaration order. -/
def arbitrateUpTo (scope : List Event) (k : Nat) : List Event :=
  (List.range k).foldl arbitrate scope

/-- Modelled from the spec: the arbitration pass of a scope, which is not under `src/`: the
triggered events are processed in declaration order. -/
def arbitrationPass (scope : List Event) : List Event :=
  arbitrateUpTo scope scope.length

/-- Modelled from the spec: one tick of a scope, steps 1 and 2. -/
def tick (scope : List Event) : List Event :=
  arbitrationPass (markTriggered scope)

/-- The states of the events of a scope, in declaration order. -/
def states (scope : List Event) : List EventState := scope.map Event.state

/-- The scope `A(overwrite), B(skip), C(parallel)`, all idle with true start conditions. -/
def scopeABC : List Event :=
  [⟨"A", Priority.value_type.overwrite, true, EventState.idle⟩,
   ⟨"B", Priority.value_type.skip, true, EventState.idle⟩,
   ⟨"C", Priority.value_type.parallel, true, EventState.idle⟩]

/-- The scope `X(overwrite), Y(overwrite)`, both idle with true start conditions. -/
def scopeXY : List Event :=
  [⟨"X", Priority.value_type.overwrite, true, EventState.idle⟩,
   ⟨"Y", Priority.value_type.overwrite, true, EventState.idle⟩]

end openscenario_interpreter

/-!
# The pose utilities of `traffic_simulator`

Shallow embedding of `src/simulation/traffic_simulator/src/math/transform.cpp`, in exact
arithmetic.  The libraries `tf2` and `quaternion_operation` are not part of the repository; the
operations of theirs that the source calls are written out after their implementation.
-/

namespace traffic_simulator
namespace math

open simulation_api.math (Point)

/-- The message `geometry_msgs::msg::Quaternion`, also the class `tf2::Quaternion`. -/
structure Quaternion where
  x : ℚ
  y : ℚ
  z : ℚ
  w : ℚ
  deriving DecidableEq

/-- The message `geometry_msgs::msg::Pose`. -/
structure Pose where
  position : Point
  orientation : Quaternion
  deriving DecidableEq

/-- A vector of three doubles: `geometry_msgs::msg::Vector3`, `tf2::Vector3`, and the
`Eigen::VectorXd v(3)` of `transformPoint`. -/
structure Vector3 where
  x : ℚ
  y : ℚ
  z : ℚ
  deriving DecidableEq

/-- The message `geometry_msgs::msg::Transform`. -/
structure TransformMsg where
  translation : Vector3
  rotation : Quaternion
  deriving DecidableEq

/-- A matrix of three rows: `tf2::Matrix3x3` and `Eigen::Matrix3d`. -/
structure Matrix3x3 where
  row0 : Vector3
  row1 : Vector3
  row2 : Vector3
  deriving DecidableEq

/-- The dot product of two vectors. -/
def Vector3.dot (a b : Vector3) : ℚ := a.x * b.x + a.y * b.y + a.z * b.z

/-- The entry `m[i][j]` of a matrix. -/
def Matrix3x3.el (m : Matrix3x3) (i j : Nat) : ℚ :=
  let row := if i = 0 then m.row0 else if i = 1 then m.row1 else m.row2
  if j = 0 then row.x else if j = 1 then row.y else row.z

/-- The product of a matrix and a vector. -/
def Matrix3x3.mulVec (m : Matrix3x3) (v : Vector3) : Vector3 :=
  ⟨m.row0.dot v, m.row1.dot v, m.row2.dot v⟩

/-- The method `tf2::Matrix3x3::transpose`. -/
def Matrix3x3.transpose (m : Matrix3x3) : Matrix3x3 :=
  ⟨⟨m.row0.x, m.row1.x, m.row2.x⟩, ⟨m.row0.y, m.row1.y, m.row2.y⟩,
    ⟨m.row0.z, m.row1.z, m.row2.z⟩⟩

/-- The product of two matrices, `tf2::Matrix3x3::operator*`. -/
def Matrix3x3.mul (a b : Matrix3x3) : Matrix3x3 :=
  let t := b.transpose
  ⟨⟨a.row0.dot t.row0, a.row0.dot t.row1, a.row0.dot t.row2⟩,
    ⟨a.row1.dot t.row0, a.row1.dot t.row1, a.row1.dot t.row2⟩,
    ⟨a.row2.dot t.row0, a.row2.dot t.row1, a.row2.dot t.row2⟩⟩

/-- The method `tf2::Matrix3x3::setRotation`: the rotation matrix of a quaternion, scaled by
`2 / length2` so that the quaternion need not be normalised. -/
def Matrix3x3.setRotation (q : Quaternion) : Matrix3x3 :=
  let d := q.x * q.x + q.y * q.y + q.z * q.z + q.w * q.w
  let s := 2 / d
  let xs := q.x * s
  let ys := q.y * s
  let zs := q.z * s
  let wx := q.w * xs
  let wy := q.w * ys
  let wz := q.w * zs
  let xx := q.x * xs
  let xy := q.x * ys
  let xz := q.x * zs
  let yy := q.y * ys
  let yz := q.y * zs
  let zz := q.z * zs
  ⟨⟨1 - (yy + zz), xy - wz, xz + wy⟩,
    ⟨xy + wz, 1 - (xx + zz), yz - wx⟩,
    ⟨xz - wy, yz + wx, 1 - (xx + yy)⟩⟩

/-- The function `tf2Sqrt` in exact arithmetic: the rational square root, which is exact on the
squares of rationals.  On any other argument it is not the real square root (it takes the integer
square roots of numerator and denominator), so `getRotation` agrees with `tf2` only where the
argument of `tf2Sqrt` is such a square, as it is for the identity rotation. -/
def tf2Sqrt (x : ℚ) : ℚ := Rat.sqrt x

/-- The method `tf2::Matrix3x3::getRotation`: the quaternion of a rotation matrix; `temp` is the
array of the four components `x, y, z, w`. -/
def Matrix3x3.getRotation (m : Matrix3x3) : Quaternion :=
  let trace := m.el 0 0 + m.el 1 1 + m.el 2 2
  let temp : Nat → ℚ :=
    if trace > 0 then
      let s := tf2Sqrt (trace + 1)
      let temp3 := s * (1 / 2)
      let s := (1 / 2) / s
      fun n =>
        if n = 3 then temp3
        else if n = 0 then (m.el 2 1 - m.el 1 2) * s
        else if n = 1 then (m.el 0 2 - m.el 2 0) * s
        else (m.el 1 0 - m.el 0 1) * s
    else
      let i : Nat :=
        if m.el 0 0 < m.el 1 1 then (if m.el 1 1 < m.el 2 2 then 2 else 1)
        else (if m.el 0 0 < m.el 2 2 then 2 else 0)
      let j := (i + 1) % 3
      let k := (i + 2) % 3
      let s := tf2Sqrt (m.el i i - m.el j j - m.el k k + 1)
      let tempi := s * (1 / 2)
      let s := (1 / 2) / s
      fun n =>
        if n = i then tempi
        else if n = 3 then (m.el k j - m.el j k) * s
        else if n = j then (m.el j i + m.el i j) * s
        else (m.el k i + m.el i k) * s
  ⟨temp 0, temp 1, temp 2, temp 3⟩

/-- The class `tf2::Transform`: a rotation matrix and an origin. -/
structure Transform where
  m_basis : Matrix3x3
  m_origin : Vector3
  deriving DecidableEq

/-- The method `tf2::Transform::inverse`: the transposed basis, applied to the negated origin. -/
def Transform.inverse (t : Transform) : Transform :=
  let inv := t.m_basis.transpose
  ⟨inv, inv.mulVec ⟨-t.m_origin.x, -t.m_origin.y, -t.m_origin.z⟩⟩

/-- The operator `tf2::Transform::operator()`: a transform applied to a vector. -/
def Transform.applyTo (t : Transform) (v : Vector3) : Vector3 :=
  ⟨t.m_basis.row0.dot v + t.m_origin.x, t.m_basis.row1.dot v + t.m_origin.y,
    t.m_basis.row2.dot v + t.m_origin.z⟩

/-- The operator `tf2::Transform::operator*`. -/
def Transform.mul (a b : Transform) : Transform :=
  ⟨a.m_basis.mul b.m_basis, a.applyTo b.m_origin⟩

/-- The conversion `tf2::fromMsg` from a transform message to a `tf2::Transform`. -/
def fromMsg (msg : TransformMsg) : Transform :=
  ⟨Matrix3x3.setRotation msg.rotation, msg.translation⟩

/-- The conversion `tf2::toMsg` from a `tf2::Transform` to a pose message. -/
def toMsg (t : Transform) : Pose :=
  ⟨⟨t.m_origin.x, t.m_origin.y, t.m_origin.z⟩, t.m_basis.getRotation⟩

/-- The function `getRelativePose` (lines 25-62). -/
def getRelativePose (from_ to_ : Pose) : Pose :=
  let from_translation : TransformMsg :=
    ⟨⟨from_.position.x, from_.position.y, from_.position.z⟩, from_.orientation⟩
  let from_tf := fromMsg from_translation
  let to_translation : TransformMsg :=
    ⟨⟨to_.position.x, to_.position.y, to_.position.z⟩, to_.orientation⟩
  let to_tf := fromMsg to_translation
  let tf_delta := from_tf.inverse.mul to_tf
  toMsg tf_delta

/-- The function `quaternion_operation::getRotationMatrix`: the rotation matrix of a
quaternion. -/
def getRotationMatrix (quat : Quaternion) : Matrix3x3 :=
  let x := quat.x
  let y := quat.y
  let z := quat.z
  let w := quat.w
  ⟨⟨x * x - y * y - z * z + w * w, 2 * (x * y - z * w), 2 * (z * x + w * y)⟩,
    ⟨2 * (x * y + z * w), -x * x + y * y - z * z + w * w, 2 * (y * z - x * w)⟩,
    ⟨2 * (z * x - w * y), 2 * (y * z + w * x), -x * x - y * y + z * z + w * w⟩⟩

/-- The function `transformPoint` (lines 64-81). -/
def transformPoint (pose : Pose) (point : Point) : Point :=
  let mat := getRotationMatrix pose.orientation
  let v : Vector3 := ⟨point.x, point.y, point.z⟩
  let v := mat.mulVec v
  let v : Vector3 := ⟨v.x + pose.position.x, v.y + pose.position.y, v.z + pose.position.z⟩
  ⟨v.x, v.y, v.z⟩

/-- The function `transformPoints` (lines 83-91): `emplace_back` of every transformed point. -/
def transformPoints (pose : Pose) (points : List Point) : List Point :=
  points.foldl (fun ret point => ret ++ [transformPoint pose point]) []

/-- The identity pose: position `(0,0,0)`, orientation `(0,0,0,1)`. -/
def identityPose : Pose := ⟨⟨0, 0, 0⟩, ⟨0, 0, 0, 1⟩⟩

end math
end traffic_simulator

/-!
# The readiness latch of `autoware_api::Accessor`

Shallow embedding of `isReady` and `checkAutowareState` of
`src/external/awapi_accessor/include/awapi_accessor/accessor.hpp`.  The function-local
`static auto ready` of `isReady` is one variable for the whole process; it is passed in and
returned explicitly.
-/

namespace autoware_api

/-- The exception `AutowareError` (lines 46-48). -/
inductive AutowareError where
  | mk
  deriving DecidableEq

/-- The string constants of the message `autoware_system_msgs::msg::AutowareState` that the
source names; the message type is not under `src/`, so they are parameters. -/
structure AutowareState where
  WAITING_FOR_ROUTE : String
  EMERGENCY : String
  WAITING_FOR_ENGAGE : String

/-- The class `Accessor`: of its members, the field `autoware_state` of
`CURRENT_VALUE_OF(AutowareStatus)`, the status received last. -/
structure Accessor where
  autoware_state : String
  deriving DecidableEq

/-- The method `isWaitingForRoute` (lines 436-441). -/
def Accessor.isWaitingForRoute (K : AutowareState) (a : Accessor) : Bool :=
  a.autoware_state == K.WAITING_FOR_ROUTE

/-- The method `isEmergency` (lines 443-448). -/
def Accessor.isEmergency (K : AutowareState) (a : Accessor) : Bool :=
  a.autoware_state == K.EMERGENCY

/-- The method `isWaitingForEngage` (lines 450-455). -/
def Accessor.isWaitingForEngage (K : AutowareState) (a : Accessor) : Bool :=
  a.autoware_state == K.WAITING_FOR_ENGAGE

/-- The method `isReady` (lines 457-462): `ready || (ready = isWaitingForRoute())`.  The
argument `ready` is the static variable before the call; the result is the returned value and
the static variable after the call. -/
def Accessor.isReady (K : AutowareState) (a : Accessor) (ready : Bool) : Bool × Bool :=
  if ready then (true, ready)
  else
    let assigned := a.isWaitingForRoute K
    (assigned, assigned)

/-- The method `isNotReady` (lines 464-467). -/
def Accessor.isNotReady (K : AutowareState) (a : Accessor) (ready : Bool) : Bool × Bool :=
  let r := a.isReady K ready
  (!r.1, r.2)

/-- The method `checkAutowareState` (lines 469-475): the exception if one is thrown, and the
static variable after the call. -/
def Accessor.checkAutowareState (K : AutowareState) (a : Accessor) (ready : Bool) :
    Except AutowareError Unit × Bool :=
  let r := a.isReady K ready
  if r.1 && a.isEmergency K then (Except.error AutowareError.mk, r.2)
  else (Except.ok (), r.2)

/-- The subscription callback `checkAutowareState` called once per received status, starting
with the static variable `ready`; for every call in order, what `isReady` returned inside it
and the outcome of `checkAutowareState`. -/
def run (K : AutowareState) : Bool → List String → List (Bool × Except AutowareError Unit)
  | _, [] => []
  | ready, status :: rest =>
    let a : Accessor := ⟨status⟩
    let r := a.isReady K ready
    let c := a.checkAutowareState K ready
    (r.1, c.1) :: run K c.2 rest

/-- The constants as the message definition spells them. -/
def autowareStateNames : AutowareState :=
  ⟨"WaitingForRoute", "Emergency", "WaitingForEngage"⟩

end autoware_api

namespace simulation_api
namespace math

/-! ## Auxiliary facts -/

theorem sizeSub_one {n : Nat} (h1 : 1 ≤ n) (h2 : n < 2 ^ 64) : sizeSub n 1 = n - 1 := by
  unfold sizeSub
  have e : (1 : Nat) % 2 ^ 64 = 1 := Nat.mod_eq_of_lt (by norm_num)
  have h3 : n + 2 ^ 64 - 1 = (n - 1) + 2 ^ 64 := by omega
  rw [e, h3, Nat.add_mod_right, Nat.mod_eq_of_lt (by omega)]

theorem vectorAt_of_some {α : Type} {v : List α} {i : Nat} {a : α} (h : v[i]? = some a) :
    vectorAt v i = Except.ok a := by
  simp [vectorAt, h]

theorem firstCurve_endpoints (cp : List Point) (p0 p1 p2 : Point)
    (h0 : cp[0]? = some p0) (h1 : cp[1]? = some p1) (h2 : cp[2]? = some p2) :
    ∃ c, firstCurve cp = Except.ok c ∧ c.getPoint 0 = p0 ∧ c.getPoint 1 = p1 := by
  simp only [firstCurve, vectorAt_of_some h0, vectorAt_of_some h1, vectorAt_of_some h2]
  refine ⟨_, rfl, ?_, ?_⟩
  · cases p0
    simp only [HermiteCurve.getPoint, Point.mk.injEq]
    refine ⟨?_, ?_, ?_⟩ <;> ring
  · cases p1
    simp only [HermiteCurve.getPoint, Point.mk.injEq]
    refine ⟨?_, ?_, ?_⟩ <;> ring

theorem lastCurve_endpoints (cp : List Point) (i : Nat) (pm p q : Point)
    (hm : cp[i - 1]? = some pm) (h0 : cp[i]? = some p) (h1 : cp[i + 1]? = some q) :
    ∃ c, lastCurve cp i = Except.ok c ∧ c.getPoint 0 = p ∧ c.getPoint 1 = q := by
  simp only [lastCurve, vectorAt_of_some hm, vectorAt_of_some h0, vectorAt_of_some h1]
  refine ⟨_, rfl, ?_, ?_⟩
  · cases p
    simp only [HermiteCurve.getPoint, Point.mk.injEq]
    refine ⟨?_, ?_, ?_⟩ <;> ring
  · cases q
    simp only [HermiteCurve.getPoint, Point.mk.injEq]
    refine ⟨?_, ?_, ?_⟩ <;> ring

theorem innerCurve_endpoints (cp : List Point) (i : Nat) (pm p q pq : Point)
    (hm : cp[i - 1]? = some pm) (h0 : cp[i]? = some p) (h1 : cp[i + 1]? = some q)
    (h2 : cp[i + 2]? = some pq) :
    ∃ c, innerCurve cp i = Except.ok c ∧ c.getPoint 0 = p ∧ c.getPoint 1 = q := by
  simp only [innerCurve, vectorAt_of_some hm, vectorAt_of_some h0, vectorAt_of_some h1,
    vectorAt_of_some h2]
  refine ⟨_, rfl, ?_, ?_⟩
  · cases p
    simp only [HermiteCurve.getPoint, Point.mk.injEq]
    refine ⟨?_, ?_, ?_⟩ <;> ring
  · cases q
    simp only [HermiteCurve.getPoint, Point.mk.injEq]
    refine ⟨?_, ?_, ?_⟩ <;> ring

theorem getElem_of_lt {α : Type} (v : List α) (i : Nat) (h : i < v.length) :
    ∃ a, v[i]? = some a :=
  ⟨v.get ⟨i, h⟩, by simp [List.getElem?_eq_getElem h]⟩

/-- Every iteration of the constructor's loop stays inside the waypoint vector and yields a
curve that starts at waypoint `i` and ends at waypoint `i + 1`. -/
theorem curveAt_endpoints (cp : List Point) (n i : Nat) (hn : n + 1 = cp.length) (h2 : 2 ≤ n)
    (hlt : n < 2 ^ 64) (hi : i < n) :
    ∃ c p q, curveAt cp n i = Except.ok c ∧ cp[i]? = some p ∧ cp[i + 1]? = some q ∧
      c.getPoint 0 = p ∧ c.getPoint 1 = q := by
  obtain ⟨p, hp⟩ := getElem_of_lt cp i (by omega)
  obtain ⟨q, hq⟩ := getElem_of_lt cp (i + 1) (by omega)
  obtain ⟨pm, hpm⟩ := getElem_of_lt cp (i - 1) (by omega)
  unfold curveAt
  rw [sizeSub_one (by omega) hlt]
  by_cases h0 : i = 0
  · subst h0
    obtain ⟨r, hr⟩ := getElem_of_lt cp 2 (by omega)
    obtain ⟨c, hc, hc0, hc1⟩ := firstCurve_endpoints cp p q r hp hq hr
    exact ⟨c, p, q, by simp [hc], hp, hq, hc0, hc1⟩
  · by_cases hl : i = n - 1
    · obtain ⟨c, hc, hc0, hc1⟩ := lastCurve_endpoints cp i pm p q hpm hp hq
      exact ⟨c, p, q, by rw [if_neg h0, if_pos hl, hc], hp, hq, hc0, hc1⟩
    · obtain ⟨r, hr⟩ := getElem_of_lt cp (i + 2) (by omega)
      obtain ⟨c, hc, hc0, hc1⟩ := innerCurve_endpoints cp i pm p q r hpm hp hq hr
      exact ⟨c, p, q, by rw [if_neg h0, if_neg hl, hc], hp, hq, hc0, hc1⟩

theorem buildCurves_length (cp : List Point) (n : Nat) :
    ∀ (k i : Nat) (cs : List HermiteCurve), buildCurves cp n k i = Except.ok cs → cs.length = k := by
  intro k
  induction k with
  | zero =>
    intro i cs h
    simp only [buildCurves, pure, Except.pure, Except.ok.injEq] at h
    simp [← h]
  | succ k ih =>
    intro i cs h
    simp only [buildCurves, bind, Except.bind, pure, Except.pure] at h
    cases hc : curveAt cp n i with
    | error e => simp [hc] at h
    | ok c =>
      cases hr : buildCurves cp n k (i + 1) with
      | error e => simp [hc, hr] at h
      | ok rest =>
        simp only [hc, hr, Except.ok.injEq] at h
        have := ih (i + 1) rest hr
        simp [← h, this]

/-- The constructor's loop succeeds on at least three waypoints, and the `j`-th curve it
produces joins waypoint `i + j` to waypoint `i + j + 1`. -/
theorem buildCurves_ok (cp : List Point) (n : Nat) (hn : n + 1 = cp.length) (h2 : 2 ≤ n)
    (hlt : n < 2 ^ 64) :
    ∀ k i : Nat, i + k = n → ∃ cs, buildCurves cp n k i = Except.ok cs ∧
      ∀ j, j < k → ∃ c p q, cs[j]? = some c ∧ cp[i + j]? = some p ∧ cp[i + j + 1]? = some q ∧
        c.getPoint 0 = p ∧ c.getPoint 1 = q := by
  intro k
  induction k with
  | zero =>
    intro i _
    exact ⟨[], rfl, fun j hj => absurd hj (Nat.not_lt_zero j)⟩
  | succ k ih =>
    intro i hik
    obtain ⟨c, p, q, hc, hp, hq, hc0, hc1⟩ := curveAt_endpoints cp n i hn h2 hlt (by omega)
    obtain ⟨rest, hrest, hall⟩ := ih (i + 1) (by omega)
    refine ⟨c :: rest, ?_, ?_⟩
    · simp only [buildCurves, bind, Except.bind, pure, Except.pure, hc, hrest]
    · intro j hj
      cases j with
      | zero => exact ⟨c, p, q, by simp, hp, hq, hc0, hc1⟩
      | succ j =>
        obtain ⟨c2, p2, q2, h1, h2, h3, h4, h5⟩ := hall j (by omega)
        refine ⟨c2, p2, q2, by simpa using h1, ?_, ?_, h4, h5⟩
        · rw [← h2]; congr 1; omega
        · rw [← h3]; congr 1; omega

theorem equals_self (p : Point) : equals p p = true := by
  have : ¬ ((0 : ℚ) > epsilon) := by
    unfold epsilon
    norm_num
  simp [equals, this]

/-- The loop of `checkConnection` raises nothing when every curve joins its two waypoints. -/
theorem checkConnectionLoop_ok (sp : CatmullRomSpline) :
    ∀ k i : Nat,
      (∀ j, j < k → ∃ c p q, sp.curves_[i + j]? = some c ∧ sp.control_points[i + j]? = some p ∧
        sp.control_points[i + j + 1]? = some q ∧ c.getPoint 0 = p ∧ c.getPoint 1 = q) →
      checkConnectionLoop sp k i = Except.ok () := by
  intro k
  induction k with
  | zero =>
    intro i _
    rfl
  | succ k ih =>
    intro i h
    obtain ⟨c, p, q, hc, hp, hq, hc0, hc1⟩ := h 0 (by omega)
    have hrest := ih (i + 1) (fun j hj => by
      obtain ⟨c2, p2, q2, h1, h2, h3, h4, h5⟩ := h (j + 1) (by omega)
      refine ⟨c2, p2, q2, ?_, ?_, ?_, h4, h5⟩
      · rw [← h1]; congr 1; omega
      · rw [← h2]; congr 1; omega
      · rw [← h3]; congr 1; omega)
    simp only [Nat.add_zero] at hc hp hq
    simp only [checkConnectionLoop, vectorAt_of_some hc, vectorAt_of_some hp, vectorAt_of_some hq,
      bind, Except.bind, hc0, hc1, equals_self, Bool.and_self, if_true, hrest]

theorem sizeSub_lt (a b : Nat) : sizeSub a b < 2 ^ 64 :=
  Nat.mod_lt _ (by norm_num)

theorem new_unfold (prim : SegmentPrimitive) (cp : List Point) :
    CatmullRomSpline.new prim cp =
      if sizeSub cp.length 1 ≤ 1 then Except.error Fault.notEnoughControlPoints
      else
        match buildCurves cp (sizeSub cp.length 1) (sizeSub cp.length 1) 0 with
        | Except.error e => Except.error e
        | Except.ok cs =>
          match CatmullRomSpline.checkConnection (CatmullRomSpline.members prim cp cs) with
          | Except.error e => Except.error e
          | Except.ok _ => Except.ok (CatmullRomSpline.members prim cp cs) := by
  unfold CatmullRomSpline.new
  generalize sizeSub cp.length 1 = n
  by_cases hn : n ≤ 1
  · simp only [hn, if_true]
    rfl
  · simp only [hn, if_false]
    cases buildCurves cp n n 0 with
    | error e => rfl
    | ok cs =>
      simp only [bind, Except.bind]
      cases CatmullRomSpline.checkConnection (CatmullRomSpline.members prim cp cs) with
      | error e => rfl
      | ok b => rfl

/-- The method `checkConnection` returns `true` whenever it returns. -/
theorem checkConnection_true (sp : CatmullRomSpline) (b : Bool)
    (h : sp.checkConnection = Except.ok b) : b = true := by
  unfold CatmullRomSpline.checkConnection at h
  split at h
  · cases h
  · simp only [bind, Except.bind] at h
    split at h
    · cases h
    · split at h
      · cases h
      · simp only [pure, Except.pure, Except.ok.injEq] at h
        exact h.symm

/-- What a successful run of the constructor says about its pieces. -/
theorem new_inv (prim : SegmentPrimitive) (cp : List Point) (sp : CatmullRomSpline)
    (h : CatmullRomSpline.new prim cp = Except.ok sp) :
    ¬ sizeSub cp.length 1 ≤ 1 ∧
    buildCurves cp (sizeSub cp.length 1) (sizeSub cp.length 1) 0 = Except.ok sp.curves_ ∧
    sp = CatmullRomSpline.members prim cp sp.curves_ ∧
    sp.checkConnection = Except.ok true := by
  rw [new_unfold] at h
  generalize sizeSub cp.length 1 = n at h ⊢
  by_cases hn : n ≤ 1
  · rw [if_pos hn] at h
    cases h
  · rw [if_neg hn] at h
    cases hb : buildCurves cp n n 0 with
    | error e =>
      simp only [hb] at h
      cases h
    | ok cs =>
      simp only [hb] at h
      cases hcc : CatmullRomSpline.checkConnection (CatmullRomSpline.members prim cp cs) with
      | error e =>
        simp only [hcc] at h
        cases h
      | ok b =>
        simp only [hcc, Except.ok.injEq] at h
        subst h
        have hb2 := checkConnection_true _ b hcc
        subst hb2
        exact ⟨hn, rfl, rfl, hcc⟩

theorem checkConnection_size (sp : CatmullRomSpline) (b : Bool)
    (h : sp.checkConnection = Except.ok b) :
    sp.control_points.length = sp.curves_.length + 1 := by
  unfold CatmullRomSpline.checkConnection at h
  split at h
  · cases h
  · rename_i hne
    exact not_not.mp hne

theorem constructed_of_ok (prim : SegmentPrimitive) (cp : List Point) (sp : CatmullRomSpline)
    (h : CatmullRomSpline.new prim cp = Except.ok sp) : Constructed prim cp sp := by
  obtain ⟨hn, hb, hsp, hcc⟩ := new_inv prim cp sp h
  have hcp : sp.control_points = cp := by rw [hsp]; rfl
  have hlen := buildCurves_length cp _ _ _ _ hb
  have hsz := checkConnection_size sp true hcc
  rw [hcp] at hsz
  have hlt := sizeSub_lt cp.length 1
  generalize sizeSub cp.length 1 = n at hn hb hlen hlt
  have hn1 : n + 1 = cp.length := by omega
  have hn2 : 2 ≤ n := by omega
  obtain ⟨cs, hcs, hj⟩ := buildCurves_ok cp n hn1 hn2 hlt n 0 (Nat.zero_add n)
  rw [hb] at hcs
  cases hcs
  refine ⟨hcp, by omega, by omega, by rw [hlen]; exact hlt, by rw [hsp]; rfl, by rw [hsp]; rfl,
    by rw [hsp]; rfl, ?_, hcc⟩
  intro i hi
  have := hj i (by omega)
  simpa using this

/-- The constructor succeeds on every vector of at least three waypoints. -/
theorem new_ok (prim : SegmentPrimitive) (cp : List Point) (h3 : 3 ≤ cp.length)
    (hlt : cp.length < 2 ^ 64) : ∃ sp, CatmullRomSpline.new prim cp = Except.ok sp := by
  have hn : sizeSub cp.length 1 = cp.length - 1 := sizeSub_one (by omega) hlt
  have hlt2 : cp.length - 1 < 2 ^ 64 := lt_of_le_of_lt (Nat.sub_le _ _) hlt
  obtain ⟨cs, hcs, hj⟩ := buildCurves_ok cp (cp.length - 1) (by omega) (by omega) hlt2
    (cp.length - 1) 0 (by omega)
  have hlen := buildCurves_length cp _ _ _ _ hcs
  have hloop : checkConnectionLoop (CatmullRomSpline.members prim cp cs) cs.length 0 =
      Except.ok () := by
    apply checkConnectionLoop_ok
    intro j hj2
    have := hj j (by omega)
    simpa [CatmullRomSpline.members] using this
  have hcc : CatmullRomSpline.checkConnection (CatmullRomSpline.members prim cp cs) =
      Except.ok true := by
    unfold CatmullRomSpline.checkConnection
    have e1 : (CatmullRomSpline.members prim cp cs).control_points = cp := rfl
    have e2 : (CatmullRomSpline.members prim cp cs).curves_ = cs := rfl
    rw [e1, e2, if_neg (by omega)]
    simp only [hloop, bind, Except.bind]
    rw [if_neg (by omega)]
    rfl
  refine ⟨CatmullRomSpline.members prim cp cs, ?_⟩
  rw [new_unfold, hn, if_neg (by omega), hcs]
  simp only [hcc]

/-! ## The cumulative-length walk -/

theorem cumulative_zero (lens : List ℚ) : cumulative lens 0 = 0 := by
  simp [cumulative]

theorem cumulative_succ (lens : List ℚ) (i : Nat) (x : ℚ) (h : lens[i]? = some x) :
    cumulative lens (i + 1) = cumulative lens i + x := by
  simp [cumulative, List.take_succ, h]

theorem foldl_add_eq (lens : List ℚ) :
    ∀ a : ℚ, lens.foldl (fun total length => total + length) a = a + lens.sum := by
  induction lens with
  | nil => intro a; simp
  | cons x xs ih =>
    intro a
    simp only [List.foldl_cons, List.sum_cons, ih]
    ring

theorem sumLengths_eq (lens : List ℚ) : sumLengths lens = cumulative lens lens.length := by
  simp [sumLengths, cumulative, foldl_add_eq]

/-- The cumulative length does not decrease when no segment length is negative. -/
theorem cumulative_mono (lens : List ℚ) (hpos : ∀ x ∈ lens, 0 ≤ x) :
    ∀ d i : Nat, i + d ≤ lens.length → cumulative lens i ≤ cumulative lens (i + d) := by
  intro d
  induction d with
  | zero => intro i _; simp
  | succ d ih =>
    intro i h
    obtain ⟨x, hx⟩ := getElem_of_lt lens (i + d) (by omega)
    have hmem : x ∈ lens := List.getElem?_mem hx
    have := cumulative_succ lens (i + d) x hx
    have h1 := ih i (by omega)
    have h2 := hpos x hmem
    rw [← Nat.add_assoc, this]
    linarith

theorem cumulative_le (lens : List ℚ) (hpos : ∀ x ∈ lens, 0 ≤ x) (i j : Nat) (hij : i ≤ j)
    (hj : j ≤ lens.length) : cumulative lens i ≤ cumulative lens j := by
  have := cumulative_mono lens hpos (j - i) i (by omega)
  rwa [Nat.add_sub_cancel' hij] at this

/-- One iteration of the walk, when `length_list_[i]` is in range. -/
theorem curveIndexLoop_step (lens : List ℚ) (s : ℚ) (k i : Nat) (cur x : ℚ)
    (h : lens[i]? = some x) :
    curveIndexLoop lens s (k + 1) i cur =
      if cur ≤ s ∧ s < cur + x then Except.ok (i, s - cur)
      else curveIndexLoop lens s k (i + 1) (cur + x) := by
  simp only [curveIndexLoop, vectorAt_of_some h, bind, Except.bind]
  rfl

/-- The walk leaves the loop, and reaches the final `throw`, when no segment brackets `s`. -/
theorem curveIndexLoop_none (lens : List ℚ) (s : ℚ) :
    ∀ k i : Nat, i + k ≤ lens.length →
      (∀ m, i ≤ m → m < i + k → ¬ (cumulative lens m ≤ s ∧ s < cumulative lens (m + 1))) →
      curveIndexLoop lens s k i (cumulative lens i) = Except.error Fault.failedCurveIndex := by
  intro k
  induction k with
  | zero => intro i _ _; rfl
  | succ k ih =>
    intro i hik hno
    obtain ⟨x, hx⟩ := getElem_of_lt lens i (by omega)
    have hs := cumulative_succ lens i x hx
    rw [curveIndexLoop_step lens s k i _ x hx, ← hs, if_neg (hno i (le_refl i) (by omega))]
    exact ih (i + 1) (by omega) (fun m hm1 hm2 => hno m (by omega) (by omega))

/-- The walk returns the first segment that brackets `s`, with the residual measured from the
start of that segment. -/
theorem curveIndexLoop_first (lens : List ℚ) (s : ℚ) (j : Nat) :
    ∀ k i : Nat, i + k ≤ lens.length → i ≤ j → j < i + k →
      (cumulative lens j ≤ s ∧ s < cumulative lens (j + 1)) →
      (∀ m, i ≤ m → m < j → ¬ (cumulative lens m ≤ s ∧ s < cumulative lens (m + 1))) →
      curveIndexLoop lens s k i (cumulative lens i) = Except.ok (j, s - cumulative lens j) := by
  intro k
  induction k with
  | zero => intro i _ h1 h2; omega
  | succ k ih =>
    intro i hik hij hjk hj hno
    obtain ⟨x, hx⟩ := getElem_of_lt lens i (by omega)
    have hs := cumulative_succ lens i x hx
    rw [curveIndexLoop_step lens s k i _ x hx, ← hs]
    by_cases hi : i = j
    · subst hi
      rw [if_pos hj]
    · rw [if_neg (hno i (le_refl i) (by omega))]
      exact ih (i + 1) (by omega) (by omega) (by omega) hj
        (fun m hm1 hm2 => hno m (by omega) hm2)

/-- Whatever the walk returns is the first bracketing segment. -/
theorem curveIndexLoop_spec (lens : List ℚ) (s : ℚ) :
    ∀ k i : Nat, i + k ≤ lens.length → ∀ (j : Nat) (r : ℚ),
      curveIndexLoop lens s k i (cumulative lens i) = Except.ok (j, r) →
      i ≤ j ∧ j < i + k ∧ cumulative lens j ≤ s ∧ s < cumulative lens (j + 1) ∧
      r = s - cumulative lens j ∧
      ∀ m, i ≤ m → m < j → ¬ (cumulative lens m ≤ s ∧ s < cumulative lens (m + 1)) := by
  intro k
  induction k with
  | zero =>
    intro i _ j r h
    cases h
  | succ k ih =>
    intro i hik j r h
    obtain ⟨x, hx⟩ := getElem_of_lt lens i (by omega)
    have hs := cumulative_succ lens i x hx
    rw [curveIndexLoop_step lens s k i _ x hx, ← hs] at h
    by_cases hb : cumulative lens i ≤ s ∧ s < cumulative lens (i + 1)
    · rw [if_pos hb] at h
      simp only [Except.ok.injEq, Prod.mk.injEq] at h
      obtain ⟨h1, h2⟩ := h
      subst h1
      exact ⟨le_refl _, by omega, hb.1, hb.2, h2.symm, fun m hm1 hm2 => by omega⟩
    · rw [if_neg hb] at h
      obtain ⟨h1, h2, h3, h4, h5, h6⟩ := ih (i + 1) (by omega) j r h
      refine ⟨by omega, by omega, h3, h4, h5, ?_⟩
      intro m hm1 hm2
      by_cases hmi : m = i
      · subst hmi
        exact hb
      · exact h6 m (by omega) hm2

/-- The walk returns a pair whenever `s` lies between the running sum and the total. -/
theorem curveIndexLoop_returns (lens : List ℚ) (s : ℚ) :
    ∀ k i : Nat, i + k ≤ lens.length → cumulative lens i ≤ s → s < cumulative lens (i + k) →
      ∃ j r, curveIndexLoop lens s k i (cumulative lens i) = Except.ok (j, r) := by
  intro k
  induction k with
  | zero =>
    intro i _ h1 h2
    simp only [Nat.add_zero] at h2
    linarith
  | succ k ih =>
    intro i hik h1 h2
    obtain ⟨x, hx⟩ := getElem_of_lt lens i (by omega)
    have hs := cumulative_succ lens i x hx
    rw [curveIndexLoop_step lens s k i _ x hx, ← hs]
    by_cases hb : s < cumulative lens (i + 1)
    · exact ⟨i, s - cumulative lens i, by rw [if_pos ⟨h1, hb⟩]⟩
    · rw [if_neg (fun h => hb h.2)]
      exact ih (i + 1) (by omega) (not_lt.mp hb) (by rwa [Nat.add_assoc, Nat.add_comm 1 k])

/-! ## `getCurveIndexAndS` on a spline state -/

/-- For `0 ≤ s ≤ total_length_` neither early return is taken: the result is that of the walk. -/
theorem getCurveIndexAndS_walk (sp : CatmullRomSpline) (s : ℚ) (h0 : 0 ≤ s)
    (h1 : s ≤ sp.total_length_) :
    sp.getCurveIndexAndS s =
      curveIndexLoop sp.length_list_ s sp.curves_.length 0 (cumulative sp.length_list_ 0) := by
  unfold CatmullRomSpline.getCurveIndexAndS
  rw [if_neg (not_lt.mpr h0), if_neg (not_lt.mpr h1), cumulative_zero]

theorem total_nonneg (sp : CatmullRomSpline) (hpos : ∀ x ∈ sp.length_list_, 0 ≤ x)
    (htot : sp.total_length_ = sumLengths sp.length_list_) : 0 ≤ sp.total_length_ := by
  rw [htot, sumLengths_eq]
  have := cumulative_le sp.length_list_ hpos 0 sp.length_list_.length (Nat.zero_le _) (le_refl _)
  rwa [cumulative_zero] at this

/-- At `s = total_length_` the walk finds no bracketing segment and the final `throw` is
reached. -/
theorem getCurveIndexAndS_total (sp : CatmullRomSpline)
    (hsz : sp.length_list_.length = sp.curves_.length)
    (hpos : ∀ x ∈ sp.length_list_, 0 ≤ x)
    (htot : sp.total_length_ = sumLengths sp.length_list_) :
    sp.getCurveIndexAndS sp.total_length_ = Except.error Fault.failedCurveIndex := by
  rw [getCurveIndexAndS_walk sp _ (total_nonneg sp hpos htot) (le_refl _)]
  apply curveIndexLoop_none
  · omega
  · intro m _ hm hb
    have h1 := cumulative_le sp.length_list_ hpos (m + 1) sp.length_list_.length (by omega)
      (le_refl _)
    rw [← sumLengths_eq, ← htot] at h1
    exact absurd hb.2 (not_lt.mpr h1)

/-- For `0 ≤ s < total_length_` the walk returns a pair. -/
theorem getCurveIndexAndS_returns (sp : CatmullRomSpline)
    (hsz : sp.length_list_.length = sp.curves_.length)
    (htot : sp.total_length_ = sumLengths sp.length_list_) (s : ℚ) (h0 : 0 ≤ s)
    (h1 : s < sp.total_length_) :
    ∃ i r, sp.getCurveIndexAndS s = Except.ok (i, r) := by
  rw [getCurveIndexAndS_walk sp s h0 (le_of_lt h1)]
  apply curveIndexLoop_returns
  · omega
  · rwa [cumulative_zero]
  · rw [Nat.zero_add, ← hsz, ← sumLengths_eq, ← htot]
    exact h1

/-- Whatever `getCurveIndexAndS` returns for `0 ≤ s ≤ total_length_` is the first bracketing
segment. -/
theorem getCurveIndexAndS_spec (sp : CatmullRomSpline)
    (hsz : sp.length_list_.length = sp.curves_.length) (s : ℚ) (h0 : 0 ≤ s)
    (h1 : s ≤ sp.total_length_) (i : Nat) (r : ℚ)
    (hret : sp.getCurveIndexAndS s = Except.ok (i, r)) :
    i < sp.curves_.length ∧ cumulative sp.length_list_ i ≤ s ∧
      s < cumulative sp.length_list_ (i + 1) ∧ r = s - cumulative sp.length_list_ i ∧
      ∀ m, m < i →
        ¬ (cumulative sp.length_list_ m ≤ s ∧ s < cumulative sp.length_list_ (m + 1)) := by
  rw [getCurveIndexAndS_walk sp s h0 h1] at hret
  obtain ⟨_, h2, h3, h4, h5, h6⟩ :=
    curveIndexLoop_spec sp.length_list_ s sp.curves_.length 0 (by omega) i r hret
  exact ⟨by omega, h3, h4, h5, fun m hm => h6 m (Nat.zero_le m) hm⟩

theorem constructed_lengths (prim : SegmentPrimitive) (cp : List Point) (sp : CatmullRomSpline)
    (hc : Constructed prim cp sp) (hpos : ∀ c, 0 ≤ prim.getLength c) :
    sp.length_list_.length = sp.curves_.length ∧ (∀ x ∈ sp.length_list_, 0 ≤ x) := by
  refine ⟨by rw [hc.lengths, List.length_map], ?_⟩
  intro x hx
  rw [hc.lengths, List.mem_map] at hx
  obtain ⟨c, _, rfl⟩ := hx
  exact hpos c

/-- The method `getPoint` evaluates the curve and the residual that `getCurveIndexAndS`
returns. -/
theorem getPoint_of (sp : CatmullRomSpline) (s r : ℚ) (i : Nat) (c : HermiteCurve)
    (h : sp.getCurveIndexAndS s = Except.ok (i, r)) (hc : sp.curves_[i]? = some c) :
    sp.getPoint s = Except.ok (c.getPoint r) := by
  unfold CatmullRomSpline.getPoint
  simp only [h, bind, Except.bind, vectorAt_of_some hc]
  rfl

/-- With no negative length, a vanishing cumulative length means every earlier segment has
length `0`. -/
theorem cumulative_zero_initial (lens : List ℚ) (hpos : ∀ x ∈ lens, 0 ≤ x) (j : Nat)
    (hj : j ≤ lens.length) (hz : cumulative lens j = 0) :
    ∀ m, m < j → lens[m]? = some 0 := by
  intro m hm
  obtain ⟨x, hx⟩ := getElem_of_lt lens m (by omega)
  have h1 := cumulative_le lens hpos 0 m (Nat.zero_le _) (by omega)
  have h2 := cumulative_le lens hpos (m + 1) j (by omega) hj
  have h3 := cumulative_succ lens m x hx
  have h4 := hpos x (List.getElem?_mem hx)
  rw [cumulative_zero] at h1
  have : x = 0 := by linarith
  rw [hx, this]

/-- On a constructed spline, waypoints joined by segments of length `0` coincide when the
segment primitive gives length `0` only to curves that end where they start. -/
theorem waypoints_constant_initial (prim : SegmentPrimitive) (cp : List Point)
    (sp : CatmullRomSpline) (hc : Constructed prim cp sp)
    (hzero : ∀ c, prim.getLength c = 0 → c.getPoint 0 = c.getPoint 1) :
    ∀ j, j ≤ sp.curves_.length → (∀ m, m < j → sp.length_list_[m]? = some 0) →
      cp[j]? = cp[0]? := by
  intro j
  induction j with
  | zero => intro _ _; rfl
  | succ j ih =>
    intro hj hall
    have hprev := ih (by omega) (fun m hm => hall m (by omega))
    obtain ⟨c, p, q, h1, h2, h3, h4, h5⟩ := hc.joins j (by omega)
    have hl := hall j (by omega)
    rw [hc.lengths, List.getElem?_map, h1] at hl
    simp only [Option.map_some', Option.some.injEq] at hl
    have := hzero c hl
    rw [h4, h5] at this
    rw [h3, ← this, ← h2, hprev]

/-! ## The two concrete splines -/

/-- The constructor evaluated on `straightLine` with unit segment lengths. -/
theorem new_straightLine :
    CatmullRomSpline.new unitPrimitive straightLine = Except.ok straightSpline := by
  norm_num [CatmullRomSpline.new, CatmullRomSpline.members, straightLine, straightSpline,
    unitPrimitive, sizeSub, buildCurves, curveAt, firstCurve, lastCurve, vectorAt, bind, Except.bind, pure, Except.pure, sumLengths,
    CatmullRomSpline.checkConnection, checkConnectionLoop, equals, epsilon, HermiteCurve.getPoint]

/-- The constructor evaluated on `coincident` with segment lengths `0`. -/
theorem new_coincident :
    CatmullRomSpline.new zeroPrimitive coincident = Except.ok coincidentSpline := by
  norm_num [CatmullRomSpline.new, CatmullRomSpline.members, coincident, coincidentSpline,
    zeroPrimitive, sizeSub, buildCurves, curveAt, firstCurve, lastCurve, vectorAt, bind, Except.bind, pure, Except.pure, sumLengths,
    CatmullRomSpline.checkConnection, checkConnectionLoop, equals, epsilon, HermiteCurve.getPoint]

/-! ## Construction -/

/-- C1: on one or two waypoints the constructor throws "numbers of control points are not
enough."; on the empty vector `control_points.size() - 1` wraps to `2^64 - 1`, the guard
`n <= 1` does not fire, and the first loop iteration reads `control_points[0]` past the end of
the vector instead of throwing. -/
theorem C1_empty_vector_passes_guard :
    sizeSub ([] : List Point).length 1 = 2 ^ 64 - 1 ∧
    (∀ prim, CatmullRomSpline.new prim [] = Except.error Fault.outOfRange) ∧
    (∀ prim, CatmullRomSpline.new prim [] ≠ Except.error Fault.notEnoughControlPoints) ∧
    (∀ prim p, CatmullRomSpline.new prim [p] = Except.error Fault.notEnoughControlPoints) ∧
    (∀ prim p q, CatmullRomSpline.new prim [p, q] = Except.error Fault.notEnoughControlPoints) := by
  have h0 : ∀ prim, CatmullRomSpline.new prim [] = Except.error Fault.outOfRange :=
    fun _ => rfl
  have e1 : sizeSub 1 1 = 0 := by norm_num [sizeSub]
  have e2 : sizeSub 2 1 = 1 := by norm_num [sizeSub]
  refine ⟨by norm_num [sizeSub], h0, ?_, ?_, ?_⟩
  · intro prim h
    rw [h0 prim] at h
    cases h
  · intro prim p
    rw [new_unfold, List.length_singleton, e1, if_pos (by decide)]
  · intro prim p q
    have e3 : [p, q].length = 2 := rfl
    rw [new_unfold, e3, e2, if_pos (by decide)]

/-- In exact arithmetic the constructor succeeds on at least three waypoints: it keeps the
waypoints, builds one segment less than there are waypoints, every segment `i` evaluates to
waypoint `i` at local parameter `0` and to waypoint `i + 1` at local parameter `1`, and
`checkConnection` returns `true`. -/
theorem exact_constructor_joins_waypoints (prim : SegmentPrimitive) (cp : List Point)
    (h3 : 3 ≤ cp.length) (hlt : cp.length < 2 ^ 64) :
    ∃ sp, CatmullRomSpline.new prim cp = Except.ok sp ∧
      sp.control_points = cp ∧
      sp.curves_.length = cp.length - 1 ∧
      (∀ i, i < cp.length - 1 → ∃ c p q, sp.curves_[i]? = some c ∧ cp[i]? = some p ∧
        cp[i + 1]? = some q ∧ c.getPoint 0 = p ∧ c.getPoint 1 = q) ∧
      sp.checkConnection = Except.ok true := by
  obtain ⟨sp, hsp⟩ := new_ok prim cp h3 hlt
  have hc := constructed_of_ok prim cp sp hsp
  have hsize := hc.size
  refine ⟨sp, hsp, hc.points, by omega, ?_, hc.connected⟩
  intro i hi
  exact hc.joins i (by omega)

/-! ## Construction in rounded arithmetic -/

/-- With enough fuel, dropping `excessBits` low bits leaves fewer than 54 bits. -/
theorem excessBits_spec (fuel : Nat) : ∀ magnitude, magnitude < 2 ^ 53 * 2 ^ fuel →
    magnitude / 2 ^ binary64.excessBits fuel magnitude < 2 ^ 53 := by
  induction fuel with
  | zero =>
    intro m h
    simpa [binary64.excessBits] using h
  | succ fuel ih =>
    intro m h
    unfold binary64.excessBits
    split
    · simpa
    · have h2 : m / 2 < 2 ^ 53 * 2 ^ fuel := by
        rw [pow_succ] at h
        omega
      have := ih (m / 2) h2
      rw [pow_succ, mul_comm, ← Nat.div_div_eq_div_mul]
      exact this

/-- The result of `roundNearestEven` has at most 53 bits, or is `2^53`, and lies within half a
unit of the last kept bit of the magnitude. -/
theorem roundNearestEven_spec (magnitude : Nat) :
    (binary64.roundNearestEven magnitude).1 ≤ 2 ^ 53 ∧
    2 * magnitude ≤ 2 * (binary64.roundNearestEven magnitude).1 * 2 ^ (binary64.roundNearestEven magnitude).2
      + 2 ^ (binary64.roundNearestEven magnitude).2 ∧
    2 * (binary64.roundNearestEven magnitude).1 * 2 ^ (binary64.roundNearestEven magnitude).2 ≤
      2 * magnitude + 2 ^ (binary64.roundNearestEven magnitude).2 := by
  have hfuel : magnitude < 2 ^ 53 * 2 ^ magnitude := by
    have := Nat.lt_two_pow magnitude
    have h53 : 0 < 2 ^ 53 := by positivity
    nlinarith
  have hq := excessBits_spec magnitude magnitude hfuel
  unfold binary64.roundNearestEven
  generalize binary64.excessBits magnitude magnitude = s at hq
  by_cases hs : s = 0
  · subst hs
    simp at hq
    simp
    omega
  · simp only [hs, if_false]
    have hdm := Nat.div_add_mod magnitude (2 ^ s)
    have hpow : 2 ^ s = 2 * 2 ^ (s - 1) := by
      rw [← pow_succ']
      congr 1
      omega
    have hmod : magnitude % 2 ^ s < 2 ^ s := Nat.mod_lt _ (by positivity)
    obtain ⟨p, hp⟩ : ∃ p, p = 2 ^ s := ⟨_, rfl⟩
    rw [← hp] at hdm hmod hpow hq ⊢
    generalize magnitude / p = q at *
    generalize magnitude % p = r at *
    generalize 2 ^ (s - 1) = hf at *
    split
    · rename_i hc
      simp only [← hp]
      refine ⟨by omega, ?_, ?_⟩ <;> rcases hc with hc | ⟨hc, _⟩ <;> nlinarith
    · rename_i hc
      have hr : r ≤ hf := by
        by_contra hcon
        exact hc (Or.inl (by omega))
      simp only [← hp]
      refine ⟨by omega, ?_, ?_⟩ <;> nlinarith

/-- The loop of `checkConnection` reads only the waypoints and the curves of the spline. -/
theorem binary64_loop_congr (sp sp2 : binary64.CatmullRomSpline)
    (h1 : sp.control_points = sp2.control_points) (h2 : sp.curves_ = sp2.curves_) (k : Nat) :
    ∀ i, binary64.checkConnectionLoop sp k i = binary64.checkConnectionLoop sp2 k i := by
  induction k with
  | zero => intro i; rfl
  | succ k ih =>
    intro i
    simp only [binary64.checkConnectionLoop, h1, h2, ih]

/-- Unfolding of `checkConnection` in rounded arithmetic. -/
theorem binary64_checkConnection_unfold (sp : binary64.CatmullRomSpline) :
    sp.checkConnection =
      if sp.control_points.length ≠ sp.curves_.length + 1 then Except.error Fault.sizeMismatch
      else (binary64.checkConnectionLoop sp sp.curves_.length 0).bind fun _ =>
        if sp.curves_.length = 0 then Except.error Fault.zeroCurves else Except.ok true := rfl

/-- Unfolding of the constructor in rounded arithmetic. -/
theorem binary64_new_unfold (prim : binary64.SegmentPrimitive) (cp : List binary64.Point) :
    binary64.CatmullRomSpline.new prim cp =
      if sizeSub cp.length 1 ≤ 1 then Except.error Fault.notEnoughControlPoints
      else (binary64.buildCurves cp (sizeSub cp.length 1) (sizeSub cp.length 1) 0).bind
        fun curves => ((binary64.CatmullRomSpline.members prim cp curves).checkConnection).bind
          fun _ => Except.ok (binary64.CatmullRomSpline.members prim cp curves) := rfl

/-- An error of the loop of `checkConnection` on the curves the constructor has built is the
outcome of the constructor. -/
theorem binary64_new_error (prim : binary64.SegmentPrimitive) (cp : List binary64.Point)
    (curves : List binary64.HermiteCurve) (e : Fault) (n : Nat)
    (hn : sizeSub cp.length 1 = n) (h1 : 1 < n)
    (hb : binary64.buildCurves cp n n 0 = Except.ok curves)
    (hlen : cp.length = curves.length + 1)
    (hloop : binary64.checkConnectionLoop ⟨cp, curves, [], [], 0⟩ curves.length 0 =
      Except.error e) :
    binary64.CatmullRomSpline.new prim cp = Except.error e := by
  have hl : binary64.checkConnectionLoop (binary64.CatmullRomSpline.members prim cp curves)
      curves.length 0 = Except.error e := by
    rw [binary64_loop_congr (binary64.CatmullRomSpline.members prim cp curves)
      ⟨cp, curves, [], [], 0⟩ rfl rfl, hloop]
  have hc : (binary64.CatmullRomSpline.members prim cp curves).checkConnection =
      Except.error e := by
    rw [binary64_checkConnection_unfold]
    have h1 : (binary64.CatmullRomSpline.members prim cp curves).control_points = cp := rfl
    have h2 : (binary64.CatmullRomSpline.members prim cp curves).curves_ = curves := rfl
    rw [h1, h2, if_neg (by simp [hlen]), hl]
    rfl
  rw [binary64_new_unfold, hn, if_neg (by omega), hb]
  show ((binary64.CatmullRomSpline.members prim cp curves).checkConnection).bind _ = _
  rw [hc]
  rfl

/-- The coordinates of `roundedWaypoints` are the `double`s nearest to `100.1`, `101.3` and
`102.7`: between `64` and `128` two neighbouring `double`s are `2^-46` apart, and each
coordinate is within `2^-47` of its decimal. -/
theorem roundedWaypoints_nearest :
    |binary64.x100_1.toRat - 1001 / 10| < 1 / 2 ^ 47 ∧
    |binary64.x101_3.toRat - 1013 / 10| < 1 / 2 ^ 47 ∧
    |binary64.x102_7.toRat - 1027 / 10| < 1 / 2 ^ 47 := by
  refine ⟨?_, ?_, ?_⟩ <;>
    norm_num [binary64.Double.toRat, binary64.x100_1, binary64.x101_3, binary64.x102_7,
      abs_lt]

/-- The loop of the constructor computes `roundedCurves` from `roundedWaypoints`. -/
theorem roundedCurves_built :
    binary64.buildCurves binary64.roundedWaypoints 2 2 0 =
      Except.ok binary64.roundedCurves := by
  decide

/-- The first segment built from `roundedWaypoints` starts at the first waypoint and ends one
unit in the last place, `2^-46`, above the second waypoint `101.3`; the tolerance of `equals` is
`2^-52`. -/
theorem roundedWaypoints_end_point_gap :
    ∃ c, binary64.firstCurve binary64.roundedWaypoints = Except.ok c ∧
      (c.getPoint 0).x.toRat = binary64.x100_1.toRat ∧
      ((c.getPoint 1).x - binary64.x101_3).toRat = 1 / 2 ^ 46 ∧
      binary64.epsilon.toRat = 1 / 2 ^ 52 := by
  have h : ∀ c, binary64.firstCurve binary64.roundedWaypoints = Except.ok c →
      (c.getPoint 0).x = ⟨7043911292184166, -46⟩ ∧
      (c.getPoint 1).x - binary64.x101_3 = ⟨1, -46⟩ := by
    intro c hc
    cases hc
    decide
  refine ⟨_, rfl, ?_, ?_, ?_⟩
  · rw [(h _ rfl).1]
    norm_num [binary64.Double.toRat, binary64.x100_1]
  · rw [(h _ rfl).2]
    norm_num [binary64.Double.toRat]
  · norm_num [binary64.Double.toRat, binary64.epsilon]

/-- In exact arithmetic the constructor succeeds on the values of `roundedWaypoints`. -/
theorem exact_constructor_on_roundedWaypoints (prim : SegmentPrimitive) :
    ∃ sp, CatmullRomSpline.new prim (binary64.roundedWaypoints.map binary64.Point.toExact) =
      Except.ok sp :=
  new_ok prim _ (by simp [binary64.roundedWaypoints]) (by simp [binary64.roundedWaypoints])

/-- C2: in the rounded arithmetic of `double` the constructor does not succeed on every vector
of at least three waypoints.  On the waypoints `(100.1,0,0), (101.3,0,0), (102.7,0,0)` the
first segment evaluates at local parameter `1` to a value `2^-46` away from the second
waypoint, `equals` compares the difference with `2^-52`, and `checkConnection` throws
"end point of the curve number 0 does not match.", whatever the segment primitive. -/
theorem C2_rounded_constructor_throws (prim : binary64.SegmentPrimitive) :
    binary64.CatmullRomSpline.new prim binary64.roundedWaypoints =
      Except.error (Fault.endPointMismatch 0) :=
  binary64_new_error prim binary64.roundedWaypoints binary64.roundedCurves
    (Fault.endPointMismatch 0) 2 (by decide) (by decide) (by decide) (by decide) (by decide)

/-! ## Queries at the two ends of the arc-length range -/

/-- C3: on every spline the constructor returns, with no segment length negative,
`total_length_` is the sum of the segment lengths and `getPoint(total_length_)` returns no
point: it ends in the error "failed to calculate curve index". -/
theorem C3_getPoint_total_length_throws (prim : SegmentPrimitive) (cp : List Point)
    (sp : CatmullRomSpline) (h : CatmullRomSpline.new prim cp = Except.ok sp)
    (hpos : ∀ c, 0 ≤ prim.getLength c) :
    sp.total_length_ = sp.length_list_.sum ∧
    sp.getPoint sp.total_length_ = Except.error Fault.failedCurveIndex := by
  have hc := constructed_of_ok prim cp sp h
  obtain ⟨hsz, hnn⟩ := constructed_lengths prim cp sp hc hpos
  refine ⟨by rw [hc.total]; simp [sumLengths, foldl_add_eq], ?_⟩
  unfold CatmullRomSpline.getPoint
  rw [getCurveIndexAndS_total sp hsz hnn hc.total]
  rfl

/-- C3 at the waypoints `(0,0,0), (1,0,0), (2,0,0)` with unit segment lengths:
`getPoint(2)` throws. -/
theorem C3_getPoint_total_length_throws_witness :
    straightSpline.total_length_ = 2 ∧
    straightSpline.getPoint 2 = Except.error Fault.failedCurveIndex := by
  have h := C3_getPoint_total_length_throws unitPrimitive straightLine straightSpline
    new_straightLine (fun _ => by simp [unitPrimitive])
  have e : straightSpline.total_length_ = 2 := rfl
  rw [e] at h
  exact ⟨rfl, h.2⟩

/-- C4: on every spline the constructor returns, with no segment length negative,
`getCurveIndexAndS(s)` returns a pair for every `0 ≤ s < total_length_`, and at
`s = total_length_`, which satisfies `0 ≤ s ≤ total_length_`, it reaches the final
`throw` "failed to calculate curve index". -/
theorem C4_fallthrough_at_total_length (prim : SegmentPrimitive) (cp : List Point)
    (sp : CatmullRomSpline) (h : CatmullRomSpline.new prim cp = Except.ok sp)
    (hpos : ∀ c, 0 ≤ prim.getLength c) :
    (∀ s, 0 ≤ s → s < sp.total_length_ → ∃ i r, sp.getCurveIndexAndS s = Except.ok (i, r)) ∧
    0 ≤ sp.total_length_ ∧
    sp.getCurveIndexAndS sp.total_length_ = Except.error Fault.failedCurveIndex := by
  have hc := constructed_of_ok prim cp sp h
  obtain ⟨hsz, hnn⟩ := constructed_lengths prim cp sp hc hpos
  exact ⟨fun s h0 h1 => getCurveIndexAndS_returns sp hsz hc.total s h0 h1,
    total_nonneg sp hnn hc.total, getCurveIndexAndS_total sp hsz hnn hc.total⟩

/-- C4 at the waypoints `(0,0,0), (1,0,0), (2,0,0)` with unit segment lengths:
`getCurveIndexAndS(2)` throws although `0 ≤ 2 ≤ total_length_`. -/
theorem C4_fallthrough_at_total_length_witness :
    (0 : ℚ) ≤ 2 ∧ (2 : ℚ) ≤ straightSpline.total_length_ ∧
    straightSpline.getCurveIndexAndS 2 = Except.error Fault.failedCurveIndex := by
  have h := C4_fallthrough_at_total_length unitPrimitive straightLine
    straightSpline new_straightLine (fun _ => by simp [unitPrimitive])
  have e : straightSpline.total_length_ = 2 := rfl
  rw [e] at h
  exact ⟨by norm_num, le_refl _, h.2.2⟩

/-- C5: on every spline the constructor returns, with no segment length negative:
when the total length is `0`, `getPoint(0)` returns no point and ends in the error "failed to
calculate curve index"; when the total length is positive, and the segment primitive gives
length `0` only to curves that end where they start, `getPoint(0)` returns the first
waypoint. -/
theorem C5_getPoint_zero (prim : SegmentPrimitive) (cp : List Point)
    (sp : CatmullRomSpline) (h : CatmullRomSpline.new prim cp = Except.ok sp)
    (hpos : ∀ c, 0 ≤ prim.getLength c) :
    (sp.total_length_ = 0 → sp.getPoint 0 = Except.error Fault.failedCurveIndex) ∧
    ((∀ c, prim.getLength c = 0 → c.getPoint 0 = c.getPoint 1) → 0 < sp.total_length_ →
      ∃ p, cp[0]? = some p ∧ sp.getPoint 0 = Except.ok p) := by
  have hc := constructed_of_ok prim cp sp h
  obtain ⟨hsz, hnn⟩ := constructed_lengths prim cp sp hc hpos
  constructor
  · intro ht
    have := getCurveIndexAndS_total sp hsz hnn hc.total
    rw [ht] at this
    unfold CatmullRomSpline.getPoint
    rw [this]
    rfl
  · intro hzero ht
    obtain ⟨i, r, hir⟩ := getCurveIndexAndS_returns sp hsz hc.total 0 (le_refl _) ht
    obtain ⟨h1, h2, _, h4, _⟩ := getCurveIndexAndS_spec sp hsz 0 (le_refl _) (le_of_lt ht) i r hir
    have h5 := cumulative_le sp.length_list_ hnn 0 i (Nat.zero_le _) (by omega)
    rw [cumulative_zero] at h5
    have hz : cumulative sp.length_list_ i = 0 := le_antisymm h2 h5
    have hr : r = 0 := by rw [h4, hz]; ring
    obtain ⟨c, p, q, hc1, hc2, _, hc4, _⟩ := hc.joins i h1
    have hpre := waypoints_constant_initial prim cp sp hc hzero i (by omega)
      (cumulative_zero_initial sp.length_list_ hnn i (by omega) hz)
    refine ⟨p, by rw [← hpre, hc2], ?_⟩
    rw [getPoint_of sp 0 r i c hir hc1, hr, hc4]

/-- C5 at three coincident waypoints `(0,0,0)`, whose two segments are constant and have
length `0`: `getPoint(0)` throws; and at the waypoints `(0,0,0), (1,0,0), (2,0,0)` with unit
segment lengths: `getPoint(0)` is `(0,0,0)`. -/
theorem C5_getPoint_zero_witness :
    coincidentSpline.getPoint 0 = Except.error Fault.failedCurveIndex ∧
    ∃ p, straightLine[0]? = some p ∧ straightSpline.getPoint 0 = Except.ok p :=
  ⟨(C5_getPoint_zero zeroPrimitive coincident coincidentSpline new_coincident
      (fun _ => le_refl _)).1 rfl,
    (C5_getPoint_zero unitPrimitive straightLine straightSpline new_straightLine
      (fun _ => by simp [unitPrimitive])).2
      (fun c hc => by simp [unitPrimitive] at hc) (by norm_num [straightSpline])⟩

/-! ## The index and the residual inside the arc-length range -/

theorem straightSpline_index : straightSpline.getCurveIndexAndS (3 / 2) = Except.ok (1, 1 / 2) := by
  norm_num [CatmullRomSpline.getCurveIndexAndS, straightSpline, curveIndexLoop, vectorAt, bind,
    Except.bind, pure, Except.pure]

/-- C7: on a spline with at least one segment and a total length that is not negative:
for `s < 0`, `getCurveIndexAndS(s)` returns `(0, s)` and `getPoint(s)` is segment `0`
evaluated at `s`; for `s > total_length_`, `getCurveIndexAndS(s)` returns the index of the last
segment with `s - total_length_`, and `getPoint(s)` is the last segment evaluated at
`s - total_length_`. -/
theorem C7_extrapolation (sp : CatmullRomSpline) (hone : 1 ≤ sp.curves_.length)
    (hlt : sp.curves_.length < 2 ^ 64) (htot : 0 ≤ sp.total_length_) (s : ℚ) :
    (s < 0 → sp.getCurveIndexAndS s = Except.ok (0, s) ∧
      ∃ c, sp.curves_[0]? = some c ∧ sp.getPoint s = Except.ok (c.getPoint s)) ∧
    (sp.total_length_ < s →
      sp.getCurveIndexAndS s = Except.ok (sp.curves_.length - 1, s - sp.total_length_) ∧
      ∃ c, sp.curves_[sp.curves_.length - 1]? = some c ∧
        sp.getPoint s = Except.ok (c.getPoint (s - sp.total_length_))) := by
  constructor
  · intro hs
    have h : sp.getCurveIndexAndS s = Except.ok (0, s) := by
      unfold CatmullRomSpline.getCurveIndexAndS
      rw [if_pos hs]
      rfl
    obtain ⟨c, hc⟩ := getElem_of_lt sp.curves_ 0 (by omega)
    exact ⟨h, c, hc, getPoint_of sp s s 0 c h hc⟩
  · intro hs
    have h : sp.getCurveIndexAndS s =
        Except.ok (sp.curves_.length - 1, s - sp.total_length_) := by
      unfold CatmullRomSpline.getCurveIndexAndS
      rw [if_neg (not_lt.mpr (le_trans htot (le_of_lt hs))), if_pos hs, sizeSub_one hone hlt]
      rfl
    obtain ⟨c, hc⟩ := getElem_of_lt sp.curves_ (sp.curves_.length - 1) (by omega)
    exact ⟨h, c, hc, getPoint_of sp s _ _ c h hc⟩

/-- C7 on the spline through `(0,0,0), (1,0,0), (2,0,0)` with unit segment lengths, at
`s = -1` and at `s = 3`. -/
theorem C7_extrapolation_witness :
    (straightSpline.getCurveIndexAndS (-1) = Except.ok (0, -1) ∧
      ∃ c, straightSpline.curves_[0]? = some c ∧
        straightSpline.getPoint (-1) = Except.ok (c.getPoint (-1))) ∧
    (straightSpline.getCurveIndexAndS 3 =
        Except.ok (straightSpline.curves_.length - 1, 3 - straightSpline.total_length_) ∧
      ∃ c, straightSpline.curves_[straightSpline.curves_.length - 1]? = some c ∧
        straightSpline.getPoint 3 = Except.ok (c.getPoint (3 - straightSpline.total_length_))) :=
  ⟨(C7_extrapolation straightSpline (by decide) (by decide) (by norm_num [straightSpline])
      (-1)).1 (by norm_num),
    (C7_extrapolation straightSpline (by decide) (by decide) (by norm_num [straightSpline])
      3).2 (by norm_num [straightSpline])⟩

/-! ## Monotonicity of the segment index -/

/-- C8: on a spline whose length list has one non-negative entry per segment, for
`0 ≤ s1 ≤ s2 ≤ total_length_`: the index `getCurveIndexAndS` returns for `s1` is at most the
index it returns for `s2`; and when `total_length_` is the sum of the lengths and
`s2 < total_length_`, both calls do return an index. -/
theorem C8_index_monotone (sp : CatmullRomSpline)
    (hsz : sp.length_list_.length = sp.curves_.length)
    (hpos : ∀ x ∈ sp.length_list_, 0 ≤ x) (s1 s2 : ℚ) (h0 : 0 ≤ s1) (h12 : s1 ≤ s2)
    (h2 : s2 ≤ sp.total_length_) :
    (∀ i1 r1 i2 r2, sp.getCurveIndexAndS s1 = Except.ok (i1, r1) →
      sp.getCurveIndexAndS s2 = Except.ok (i2, r2) → i1 ≤ i2) ∧
    (sp.total_length_ = sumLengths sp.length_list_ → s2 < sp.total_length_ →
      ∃ i1 r1 i2 r2, sp.getCurveIndexAndS s1 = Except.ok (i1, r1) ∧
        sp.getCurveIndexAndS s2 = Except.ok (i2, r2) ∧ i1 ≤ i2) := by
  have hmono : ∀ i1 r1 i2 r2, sp.getCurveIndexAndS s1 = Except.ok (i1, r1) →
      sp.getCurveIndexAndS s2 = Except.ok (i2, r2) → i1 ≤ i2 := by
    intro i1 r1 i2 r2 e1 e2
    obtain ⟨a1, a2, _, _, _⟩ := getCurveIndexAndS_spec sp hsz s1 h0 (le_trans h12 h2) i1 r1 e1
    obtain ⟨_, _, b3, _, _⟩ := getCurveIndexAndS_spec sp hsz s2 (le_trans h0 h12) h2 i2 r2 e2
    by_contra hlt
    have := cumulative_le sp.length_list_ hpos (i2 + 1) i1 (by omega) (by omega)
    linarith
  refine ⟨hmono, ?_⟩
  intro htot hs2
  obtain ⟨i1, r1, e1⟩ := getCurveIndexAndS_returns sp hsz htot s1 h0 (lt_of_le_of_lt h12 hs2)
  obtain ⟨i2, r2, e2⟩ := getCurveIndexAndS_returns sp hsz htot s2 (le_trans h0 h12) hs2
  exact ⟨i1, r1, i2, r2, e1, e2, hmono i1 r1 i2 r2 e1 e2⟩

theorem straightSpline_index_half :
    straightSpline.getCurveIndexAndS (1 / 2) = Except.ok (0, 1 / 2) := by
  norm_num [CatmullRomSpline.getCurveIndexAndS, straightSpline, curveIndexLoop, vectorAt, bind,
    Except.bind, pure, Except.pure]

/-- C8 on the spline through `(0,0,0), (1,0,0), (2,0,0)` with unit segment lengths, at
`s1 = 1/2` and `s2 = 3/2`: the indices are `0` and `1`. -/
theorem C8_index_monotone_witness :
    straightSpline.getCurveIndexAndS (1 / 2) = Except.ok (0, 1 / 2) ∧
    straightSpline.getCurveIndexAndS (3 / 2) = Except.ok (1, 1 / 2) ∧ (0 : Nat) ≤ 1 :=
  ⟨straightSpline_index_half, straightSpline_index,
    (C8_index_monotone straightSpline rfl (by simp [straightSpline]) (1 / 2) (3 / 2)
      (by norm_num) (by norm_num) (by norm_num [straightSpline])).1 0 (1 / 2) 1 (1 / 2)
      straightSpline_index_half straightSpline_index⟩

/-! ## Maximum curvature -/

/-- The algorithm `max_element` returns an element of the range that no element exceeds. -/
theorem max_element_spec (rest : List ℚ) :
    ∀ largest : ℚ, max_element largest rest ∈ largest :: rest ∧
      ∀ x ∈ largest :: rest, x ≤ max_element largest rest := by
  induction rest with
  | nil =>
    intro largest
    simp [max_element]
  | cons y ys ih =>
    intro largest
    unfold max_element
    by_cases hlt : largest < y
    · rw [if_pos hlt]
      obtain ⟨h1, h2⟩ := ih y
      refine ⟨List.mem_cons_of_mem _ h1, ?_⟩
      intro x hx
      rcases List.mem_cons.mp hx with rfl | hx
      · exact le_trans (le_of_lt hlt) (h2 y (List.mem_cons_self _ _))
      · exact h2 x hx
    · rw [if_neg hlt]
      obtain ⟨h1, h2⟩ := ih largest
      refine ⟨?_, ?_⟩
      · rcases List.mem_cons.mp h1 with h | h
        · rw [h]; exact List.mem_cons_self _ _
        · exact List.mem_cons_of_mem _ (List.mem_cons_of_mem _ h)
      · intro x hx
        rcases List.mem_cons.mp hx with rfl | hx
        · exact h2 x (List.mem_cons_self _ _)
        · rcases List.mem_cons.mp hx with rfl | hx
          · exact le_trans (not_lt.mp hlt) (h2 largest (List.mem_cons_self _ _))
          · exact h2 x (List.mem_cons_of_mem _ hx)

/-- C9: `getMaximum2DCurventure` throws exactly when the curvature list is empty, and then
with "maximum 2D curventure vector size is 0."; otherwise it returns an element of the list
that is at least every element.  On a spline the constructor returns, the list has one entry
per segment, there are at least two segments, and a maximum is returned. -/
theorem C9_maximum_curvature (sp : CatmullRomSpline) :
    ((∃ e, sp.getMaximum2DCurventure = Except.error e) ↔ sp.maximum_2d_curvatures_ = []) ∧
    (∀ e, sp.getMaximum2DCurventure = Except.error e → e = Fault.emptyCurvature) ∧
    (∀ v, sp.getMaximum2DCurventure = Except.ok v →
      v ∈ sp.maximum_2d_curvatures_ ∧ ∀ x ∈ sp.maximum_2d_curvatures_, x ≤ v) ∧
    (∀ prim cp, CatmullRomSpline.new prim cp = Except.ok sp →
      sp.maximum_2d_curvatures_.length = sp.curves_.length ∧ 2 ≤ sp.curves_.length ∧
      ∃ v, sp.getMaximum2DCurventure = Except.ok v) := by
  have hcases : ∀ l : List ℚ, sp.maximum_2d_curvatures_ = l →
      (l = [] ∧ sp.getMaximum2DCurventure = Except.error Fault.emptyCurvature) ∨
      (∃ first rest, l = first :: rest ∧
        sp.getMaximum2DCurventure = Except.ok (max_element first rest)) := by
    intro l hl
    unfold CatmullRomSpline.getMaximum2DCurventure
    rw [hl]
    cases l with
    | nil => exact Or.inl ⟨rfl, rfl⟩
    | cons first rest => exact Or.inr ⟨first, rest, rfl, rfl⟩
  refine ⟨⟨?_, ?_⟩, ?_, ?_, ?_⟩
  · rintro ⟨e, he⟩
    rcases hcases _ rfl with ⟨h1, _⟩ | ⟨first, rest, _, h2⟩
    · exact h1
    · rw [h2] at he
      cases he
  · intro hnil
    rcases hcases _ rfl with ⟨_, h2⟩ | ⟨first, rest, h1, _⟩
    · exact ⟨_, h2⟩
    · rw [hnil] at h1
      cases h1
  · intro e he
    rcases hcases _ rfl with ⟨_, h2⟩ | ⟨first, rest, _, h2⟩
    · rw [h2] at he
      cases he
      rfl
    · rw [h2] at he
      cases he
  · intro v hv
    rcases hcases _ rfl with ⟨_, h2⟩ | ⟨first, rest, h1, h2⟩
    · rw [h2] at hv
      cases hv
    · rw [h2] at hv
      cases hv
      rw [h1]
      exact max_element_spec rest first
  · intro prim cp hnew
    have hc := constructed_of_ok prim cp sp hnew
    have hlen : sp.maximum_2d_curvatures_.length = sp.curves_.length := by
      rw [hc.curvatures, List.length_map]
    have htwo := hc.two
    refine ⟨hlen, htwo, ?_⟩
    rcases hcases _ rfl with ⟨h1, _⟩ | ⟨first, rest, _, h2⟩
    · rw [h1] at hlen
      simp only [List.length_nil] at hlen
      omega
    · exact ⟨_, h2⟩

/-- C9 on the spline through `(0,0,0), (1,0,0), (2,0,0)`: the curvature list has two entries
and a maximum is returned. -/
theorem C9_maximum_curvature_witness :
    straightSpline.maximum_2d_curvatures_.length = straightSpline.curves_.length ∧
    2 ≤ straightSpline.curves_.length ∧
    ∃ v, straightSpline.getMaximum2DCurventure = Except.ok v :=
  (C9_maximum_curvature straightSpline).2.2.2 unitPrimitive straightLine new_straightLine

/-! ## The straight line with unit spacing -/

theorem buildCurves_straightLine :
    buildCurves straightLine 2 2 0 =
      Except.ok [⟨0, 0, 1, 0, 0, 0, 0, 0, 0, 0, 0, 0⟩, ⟨0, 0, 1, 1, 0, 0, 0, 0, 0, 0, 0, 0⟩] := by
  norm_num [straightLine, sizeSub, buildCurves, curveAt, firstCurve, lastCurve, vectorAt, bind,
    Except.bind, pure, Except.pure]

theorem checkConnection_straightLine (prim : SegmentPrimitive) :
    CatmullRomSpline.checkConnection (CatmullRomSpline.members prim straightLine
      [⟨0, 0, 1, 0, 0, 0, 0, 0, 0, 0, 0, 0⟩, ⟨0, 0, 1, 1, 0, 0, 0, 0, 0, 0, 0, 0⟩]) =
      Except.ok true := by
  norm_num [CatmullRomSpline.members, straightLine, vectorAt, bind, Except.bind, pure,
    Except.pure, CatmullRomSpline.checkConnection, checkConnectionLoop, equals, epsilon,
    HermiteCurve.getPoint]

/-- C10: for the waypoints `(0,0,0), (1,0,0), (2,0,0)`, and a segment primitive that is exact
on unit-speed straight segments, the constructor returns a spline with exactly two segments,
`x(t) = t` and `x(t) = 1 + t` with `y = z = 0` and no quadratic or cubic coefficient; each has
length `1`, the total length is `2`, and the maximum planar curvature is `0`. -/
theorem C10_straight_line (prim : SegmentPrimitive) (hprim : prim.ExactOnUnitLines) :
    ∃ sp c0 c1, CatmullRomSpline.new prim straightLine = Except.ok sp ∧
      sp.curves_ = [c0, c1] ∧
      c0 = ⟨0, 0, 1, 0, 0, 0, 0, 0, 0, 0, 0, 0⟩ ∧ c1 = ⟨0, 0, 1, 1, 0, 0, 0, 0, 0, 0, 0, 0⟩ ∧
      (∀ t, c0.getPoint t = ⟨t, 0, 0⟩) ∧ (∀ t, c1.getPoint t = ⟨1 + t, 0, 0⟩) ∧
      sp.length_list_ = [1, 1] ∧ sp.total_length_ = 2 ∧
      sp.maximum_2d_curvatures_ = [0, 0] ∧
      sp.getMaximum2DCurventure = Except.ok 0 := by
  have h0 := hprim ⟨0, 0, 1, 0, 0, 0, 0, 0, 0, 0, 0, 0⟩
    (by norm_num [HermiteCurve.IsPlanarUnitLine])
  have h1 := hprim ⟨0, 0, 1, 1, 0, 0, 0, 0, 0, 0, 0, 0⟩
    (by norm_num [HermiteCurve.IsPlanarUnitLine])
  have e3 : sizeSub straightLine.length 1 = 2 := by norm_num [sizeSub, straightLine]
  refine ⟨CatmullRomSpline.members prim straightLine
    [⟨0, 0, 1, 0, 0, 0, 0, 0, 0, 0, 0, 0⟩, ⟨0, 0, 1, 1, 0, 0, 0, 0, 0, 0, 0, 0⟩], _, _, ?_, rfl,
    rfl, rfl, ?_, ?_, ?_, ?_, ?_, ?_⟩
  · rw [new_unfold, e3, if_neg (by decide), buildCurves_straightLine]
    simp only [checkConnection_straightLine]
  · intro t
    simp [HermiteCurve.getPoint]
  · intro t
    simp only [HermiteCurve.getPoint, Point.mk.injEq]
    refine ⟨by ring, by ring, by ring⟩
  · simp [CatmullRomSpline.members, h0.1, h1.1]
  · norm_num [CatmullRomSpline.members, sumLengths, h0.1, h1.1]
  · simp [CatmullRomSpline.members, h0.2, h1.2]
  · norm_num [CatmullRomSpline.getMaximum2DCurventure, CatmullRomSpline.members, max_element,
      h0.2, h1.2, pure, Except.pure]

/-- C10 with the segment primitive that reports length `1` and curvature `0`. -/
theorem C10_straight_line_witness :
    ∃ sp c0 c1, CatmullRomSpline.new unitPrimitive straightLine = Except.ok sp ∧
      sp.curves_ = [c0, c1] ∧
      c0 = ⟨0, 0, 1, 0, 0, 0, 0, 0, 0, 0, 0, 0⟩ ∧ c1 = ⟨0, 0, 1, 1, 0, 0, 0, 0, 0, 0, 0, 0⟩ ∧
      (∀ t, c0.getPoint t = ⟨t, 0, 0⟩) ∧ (∀ t, c1.getPoint t = ⟨1 + t, 0, 0⟩) ∧
      sp.length_list_ = [1, 1] ∧ sp.total_length_ = 2 ∧
      sp.maximum_2d_curvatures_ = [0, 0] ∧
      sp.getMaximum2DCurventure = Except.ok 0 :=
  C10_straight_line unitPrimitive (fun _ _ => ⟨rfl, rfl⟩)

end math
end simulation_api

/-!
# Theorems on `openscenario_interpreter`
-/

namespace openscenario_interpreter

/-! ## The pattern of the condition name -/

theorem split_first_dot (s p : List Char) (h : '.' ∉ s) :
    (s ++ '.' :: p).takeWhile (fun c => c ≠ '.') = s ∧
    (s ++ '.' :: p).dropWhile (fun c => c ≠ '.') = '.' :: p := by
  induction s with
  | nil => simp
  | cons a s ih =>
    have ha : a ≠ '.' := fun e => h (by simp [e])
    have hs : '.' ∉ s := fun e => h (List.mem_cons_of_mem _ e)
    obtain ⟨h1, h2⟩ := ih hs
    have e : decide (a ≠ '.') = true := by simpa using ha
    simp only [List.cons_append, List.takeWhile_cons, List.dropWhile_cons, e, if_true, h1, h2,
      and_self]

theorem dropWhile_dot_inv (l : List Char) :
    ∀ (c : Char) (rest : List Char), l.dropWhile (fun c => c ≠ '.') = c :: rest →
      c = '.' ∧ l = l.takeWhile (fun c => c ≠ '.') ++ '.' :: rest ∧
      '.' ∉ l.takeWhile (fun c => c ≠ '.') := by
  induction l with
  | nil => intro c rest h; simp at h
  | cons a l ih =>
    intro c rest h
    by_cases ha : a = '.'
    · subst ha
      simp [List.dropWhile_cons] at h
      simp [List.takeWhile_cons, h.1.symm, h.2]
    · simp only [List.dropWhile_cons, ha, ne_eq, not_false_eq_true, decide_True, if_true] at h
      obtain ⟨h1, h2, h3⟩ := ih c rest h
      refine ⟨h1, ?_, ?_⟩
      · simp only [List.takeWhile_cons, ha, ne_eq, not_false_eq_true, decide_True, if_true,
          List.cons_append]
        rw [← h2]
      · simp only [List.takeWhile_cons, ha, ne_eq, not_false_eq_true, decide_True, if_true,
          List.mem_cons, not_or]
        exact ⟨fun e => ha e.symm, h3⟩

/-- A match splits the name at its first dot into two non-empty parts, the second free of line
terminators. -/
theorem regex_match_some (name : String) (result : smatch) (h : regex_match name = some result) :
    name.toList = result.str1.toList ++ '.' :: result.str2.toList ∧
    result.str1.toList ≠ [] ∧ '.' ∉ result.str1.toList ∧ result.str2.toList ≠ [] ∧
    ∀ c ∈ result.str2.toList, anyCharacter c = true := by
  unfold regex_match at h
  simp only at h
  split at h
  · cases h
  · rename_i c group2 hd
    split at h
    · rename_i hc
      simp only [Option.some.injEq] at h
      subst h
      obtain ⟨h1, h2, h3⟩ := dropWhile_dot_inv name.toList c group2 hd
      refine ⟨h2, hc.1, h3, hc.2.1, ?_⟩
      intro x hx
      exact List.all_eq_true.mp hc.2.2 x hx
    · cases h

/-- Every name that splits at a dot into two non-empty parts, the first free of dots and the
second free of line terminators, matches, with these parts as sub-matches. -/
theorem regex_match_of_split (name : String) (s p : List Char)
    (h : name.toList = s ++ '.' :: p) (hs : s ≠ []) (hd : '.' ∉ s) (hp : p ≠ [])
    (hl : ∀ c ∈ p, anyCharacter c = true) :
    regex_match name = some ⟨String.mk s, String.mk p⟩ := by
  obtain ⟨h1, h2⟩ := split_first_dot s p hd
  unfold regex_match
  simp only [h, h1, h2]
  rw [if_pos ⟨hs, hp, List.all_eq_true.mpr hl⟩]

theorem regex_match_none_iff (name : String) :
    regex_match name = none ↔
      ¬ ∃ s p : List Char, name.toList = s ++ '.' :: p ∧ s ≠ [] ∧ '.' ∉ s ∧ p ≠ [] ∧
        ∀ c ∈ p, anyCharacter c = true := by
  constructor
  · rintro h ⟨s, p, h1, h2, h3, h4, h5⟩
    rw [regex_match_of_split name s p h1 h2 h3 h4 h5] at h
    cases h
  · intro h
    cases hr : regex_match name with
    | none => rfl
    | some result =>
      obtain ⟨h1, h2, h3, h4, h5⟩ := regex_match_some name result hr
      exact absurd ⟨_, _, h1, h2, h3, h4, h5⟩ h

/-- The outcome of the constructor on a name that matches. -/
theorem new_of_match (name value : String) (compare : Rule) (result : smatch)
    (h : regex_match name = some result) :
    UserDefinedValueCondition.new name value compare =
      if result.str2 = "currentState" then
        Except.ok { name := name, value := value, compare := compare, last_checked_value := "",
                    evaluateValue := fun evaluateCurrentState => evaluateCurrentState result.str1 }
      else Except.error Error.out_of_range := by
  unfold UserDefinedValueCondition.new
  simp only [h, mapAt, dispatch, List.lookup]
  by_cases hk : result.str2 = "currentState"
  · simp [hk, bind, Except.bind, pure, Except.pure]
  · have : (result.str2 == "currentState") = false := by simpa using hk
    simp [hk, this, bind, Except.bind]

theorem new_of_no_match (name value : String) (compare : Rule) (h : regex_match name = none) :
    UserDefinedValueCondition.new name value compare = Except.error Error.SyntaxError := by
  unfold UserDefinedValueCondition.new
  simp only [h]
  rfl

theorem new_syntaxError_iff (name value : String) (compare : Rule) :
    UserDefinedValueCondition.new name value compare = Except.error Error.SyntaxError ↔
      regex_match name = none := by
  constructor
  · intro h
    cases hr : regex_match name with
    | none => rfl
    | some result =>
      rw [new_of_match name value compare result hr] at h
      split at h <;> cases h
  · exact new_of_no_match name value compare

/-- C11 (amended): construction fails with `SyntaxError` exactly when the name is not of the
form subject, dot, property with a non-empty subject free of dots and a non-empty property free
of the line terminators (line feed and carriage return); the names `state`, `.currentState`
and `vehicle.` fail with `SyntaxError`. -/
theorem C11_syntaxError_iff_no_match (name value : String) (compare : Rule) :
    (UserDefinedValueCondition.new name value compare = Except.error Error.SyntaxError ↔
      ¬ ∃ subject property : List Char, name.toList = subject ++ '.' :: property ∧
        subject ≠ [] ∧ '.' ∉ subject ∧ property ≠ [] ∧
        ∀ c ∈ property, c ≠ Char.ofNat 10 ∧ c ≠ Char.ofNat 13) ∧
    UserDefinedValueCondition.new "state" value compare = Except.error Error.SyntaxError ∧
    UserDefinedValueCondition.new ".currentState" value compare =
      Except.error Error.SyntaxError ∧
    UserDefinedValueCondition.new "vehicle." value compare = Except.error Error.SyntaxError := by
  refine ⟨?_, new_of_no_match _ _ _ (by decide), new_of_no_match _ _ _ (by decide),
    new_of_no_match _ _ _ (by decide)⟩
  rw [new_syntaxError_iff, regex_match_none_iff]
  simp only [anyCharacter, Bool.and_eq_true, decide_eq_true_eq]

/-- C11 as stated fails at the name `vehicle.`, line feed, `currentState`: it has a non-empty
subject free of dots, a dot and a non-empty property, and construction fails with
`SyntaxError`. -/
theorem C11_counterexample :
    (∃ subject property : List Char, nameWithLineFeed.toList = subject ++ '.' :: property ∧
      subject ≠ [] ∧ '.' ∉ subject ∧ property ≠ []) ∧
    UserDefinedValueCondition.new nameWithLineFeed "ARRIVED" Rule.equalTo =
      Except.error Error.SyntaxError :=
  ⟨⟨"vehicle".toList, Char.ofNat 10 :: "currentState".toList, by decide, by decide, by decide,
    by decide⟩, new_of_no_match _ _ _ (by decide)⟩

/-- C12: for a name that matches the pattern, the property is all the text after the first
dot; construction succeeds exactly when the property is `currentState`, and every other
property fails with `std::out_of_range`, which is not `SyntaxError`. -/
theorem C12_property_lookup (name value : String) (compare : Rule) (result : smatch)
    (h : regex_match name = some result) :
    name.toList = result.str1.toList ++ '.' :: result.str2.toList ∧
    '.' ∉ result.str1.toList ∧
    ((∃ c, UserDefinedValueCondition.new name value compare = Except.ok c) ↔
      result.str2 = "currentState") ∧
    (result.str2 ≠ "currentState" →
      UserDefinedValueCondition.new name value compare = Except.error Error.out_of_range) ∧
    Error.out_of_range ≠ Error.SyntaxError := by
  obtain ⟨h1, _, h3, _, _⟩ := regex_match_some name result h
  have hnew := new_of_match name value compare result h
  refine ⟨h1, h3, ⟨?_, ?_⟩, ?_, by decide⟩
  · rintro ⟨c, hc⟩
    by_contra hne
    rw [hnew, if_neg hne] at hc
    cases hc
  · intro he
    rw [hnew, if_pos he]
    exact ⟨_, rfl⟩
  · intro hne
    rw [hnew, if_neg hne]

/-- C12 at the names `vehicle.speed`, `a.b.currentState`, `vehicle.CurrentState` and
`vehicle.currentState`. -/
theorem C12_property_lookup_witness :
    UserDefinedValueCondition.new "vehicle.speed" "ARRIVED" Rule.equalTo =
      Except.error Error.out_of_range ∧
    UserDefinedValueCondition.new "a.b.currentState" "ARRIVED" Rule.equalTo =
      Except.error Error.out_of_range ∧
    UserDefinedValueCondition.new "vehicle.CurrentState" "ARRIVED" Rule.equalTo =
      Except.error Error.out_of_range ∧
    ∃ c, UserDefinedValueCondition.new "vehicle.currentState" "ARRIVED" Rule.equalTo =
      Except.ok c :=
  ⟨(C12_property_lookup "vehicle.speed" "ARRIVED" Rule.equalTo ⟨"vehicle", "speed"⟩
      (by decide)).2.2.2.1 (by decide),
    (C12_property_lookup "a.b.currentState" "ARRIVED" Rule.equalTo ⟨"a", "b.currentState"⟩
      (by decide)).2.2.2.1 (by decide),
    (C12_property_lookup "vehicle.CurrentState" "ARRIVED" Rule.equalTo
      ⟨"vehicle", "CurrentState"⟩ (by decide)).2.2.2.1 (by decide),
    (C12_property_lookup "vehicle.currentState" "ARRIVED" Rule.equalTo
      ⟨"vehicle", "currentState"⟩ (by decide)).2.2.1.mpr rfl⟩

/-! ## Evaluation and description of the condition -/

/-- A name made of a non-empty subject free of dots and `.currentState` is accepted, and the
stored function calls the state provider with the subject. -/
theorem new_currentState (subject value : String) (compare : Rule)
    (hs : subject.toList ≠ []) (hd : '.' ∉ subject.toList) :
    UserDefinedValueCondition.new (subject ++ ".currentState") value compare =
      Except.ok { name := subject ++ ".currentState", value := value, compare := compare,
                  last_checked_value := "",
                  evaluateValue := fun evaluateCurrentState => evaluateCurrentState subject } := by
  have hm : regex_match (subject ++ ".currentState") =
      some ⟨String.mk subject.toList, String.mk "currentState".toList⟩ :=
    regex_match_of_split _ subject.toList "currentState".toList rfl hs hd (by decide)
      (by decide)
  have e : (⟨String.mk subject.toList, String.mk "currentState".toList⟩ : smatch).str2 =
      "currentState" := rfl
  rw [new_of_match _ value compare _ hm, if_pos e]
  rfl

/-- C13: a condition built from a non-empty subject free of dots followed by `.currentState`
exists; each call of `evaluate` returns the rule applied to what the state provider gives for
that subject and the reference value, stores that text in `last_checked_value`, and leaves
`name`, `value`, the rule and the stored function as they were, so the same holds for the next
call; with the rule `equalTo` the result is true exactly when the provider gives the reference
value. -/
theorem C13_evaluate (subject value : String) (compare : Rule)
    (hs : subject.toList ≠ []) (hd : '.' ∉ subject.toList) :
    ∃ c, UserDefinedValueCondition.new (subject ++ ".currentState") value compare =
        Except.ok c ∧
      c.name = subject ++ ".currentState" ∧ c.value = value ∧ c.compare = compare ∧
      ∀ hook : StateProvider,
        (c.evaluate hook).1 = compare.compare (hook subject) value ∧
        (c.evaluate hook).2.last_checked_value = hook subject ∧
        (c.evaluate hook).2.name = c.name ∧
        (c.evaluate hook).2.value = c.value ∧
        (c.evaluate hook).2.compare = c.compare ∧
        (compare = Rule.equalTo → ((c.evaluate hook).1 = true ↔ hook subject = value)) ∧
        ∀ next : StateProvider,
          ((c.evaluate hook).2.evaluate next).1 = compare.compare (next subject) value ∧
          ((c.evaluate hook).2.evaluate next).2.last_checked_value = next subject := by
  refine ⟨_, new_currentState subject value compare hs hd, rfl, rfl, rfl, ?_⟩
  intro hook
  refine ⟨rfl, rfl, rfl, rfl, rfl, ?_, fun next => ⟨rfl, rfl⟩⟩
  intro he
  subst he
  simp [UserDefinedValueCondition.evaluate, Rule.compare]

/-- C13 for the name `vehicle.currentState`, the rule `equalTo` and the value `ARRIVED`: the
result of `evaluate` is true exactly when the provider gives `ARRIVED` for `vehicle`. -/
theorem C13_evaluate_witness :
    ∃ c, UserDefinedValueCondition.new "vehicle.currentState" "ARRIVED" Rule.equalTo =
        Except.ok c ∧
      ∀ hook : StateProvider,
        ((c.evaluate hook).1 = true ↔ hook "vehicle" = "ARRIVED") ∧
        (c.evaluate hook).2.last_checked_value = hook "vehicle" := by
  obtain ⟨c, h1, _, _, _, h2⟩ :=
    C13_evaluate "vehicle" "ARRIVED" Rule.equalTo (by decide) (by decide)
  exact ⟨c, h1, fun hook => ⟨(h2 hook).2.2.2.2.2.1 rfl, (h2 hook).2.1⟩⟩

/-- C14: `description` is `Is the `, the name, ` (= `, the last checked value, `) is `, the
text of the rule, a blank, the value and `?`, so each of the four is part of it; a condition
fresh from the constructor has the empty string as last checked value; after `evaluate` the
last checked value is what the stored function has just returned. -/
theorem C14_description (c : UserDefinedValueCondition) :
    c.description =
      "Is the " ++ c.name ++ " (= " ++ c.last_checked_value ++ ") is " ++ c.compare.text ++
        " " ++ c.value ++ "?" ∧
    List.IsInfix c.name.toList c.description.toList ∧
    List.IsInfix c.last_checked_value.toList c.description.toList ∧
    List.IsInfix c.compare.text.toList c.description.toList ∧
    List.IsInfix c.value.toList c.description.toList ∧
    (∀ name value compare, UserDefinedValueCondition.new name value compare = Except.ok c →
      c.last_checked_value = "" ∧
      c.description =
        "Is the " ++ name ++ " (= " ++ "" ++ ") is " ++ compare.text ++ " " ++ value ++ "?") ∧
    (∀ hook : StateProvider,
      (c.evaluate hook).2.last_checked_value = c.evaluateValue hook ∧
      (c.evaluate hook).2.description =
        "Is the " ++ c.name ++ " (= " ++ c.evaluateValue hook ++ ") is " ++ c.compare.text ++
          " " ++ c.value ++ "?") := by
  refine ⟨rfl, ?_, ?_, ?_, ?_, ?_, fun hook => ⟨rfl, rfl⟩⟩
  · exact ⟨"Is the ".toList,
      (" (= " ++ c.last_checked_value ++ ") is " ++ c.compare.text ++ " " ++ c.value ++
        "?").toList,
      by simp [UserDefinedValueCondition.description, String.toList, List.append_assoc]⟩
  · exact ⟨("Is the " ++ c.name ++ " (= ").toList,
      (") is " ++ c.compare.text ++ " " ++ c.value ++ "?").toList,
      by simp [UserDefinedValueCondition.description, String.toList, List.append_assoc]⟩
  · exact ⟨("Is the " ++ c.name ++ " (= " ++ c.last_checked_value ++ ") is ").toList,
      (" " ++ c.value ++ "?").toList,
      by simp [UserDefinedValueCondition.description, String.toList, List.append_assoc]⟩
  · exact ⟨("Is the " ++ c.name ++ " (= " ++ c.last_checked_value ++ ") is " ++
        c.compare.text ++ " ").toList, "?".toList,
      by simp [UserDefinedValueCondition.description, String.toList, List.append_assoc]⟩
  · intro name value compare h
    cases hr : regex_match name with
    | none =>
      rw [new_of_no_match name value compare hr] at h
      cases h
    | some result =>
      rw [new_of_match name value compare result hr] at h
      split at h
      · simp only [Except.ok.injEq] at h
        subst h
        exact ⟨rfl, rfl⟩
      · cases h

/-- C14 for the condition `vehicle.currentState` with rule `equalTo` and value `ARRIVED`:
its description before `evaluate`, and after an `evaluate` in which the provider gives
`ARRIVED`. -/
theorem C14_description_witness :
    ∃ c, UserDefinedValueCondition.new "vehicle.currentState" "ARRIVED" Rule.equalTo =
        Except.ok c ∧
      c.description = "Is the vehicle.currentState (= ) is equalTo ARRIVED?" ∧
      (c.evaluate (fun _ => "ARRIVED")).2.description =
        "Is the vehicle.currentState (= ARRIVED) is equalTo ARRIVED?" := by
  have hnew := new_currentState "vehicle" "ARRIVED" Rule.equalTo (by decide) (by decide)
  refine ⟨_, hnew, ?_, ?_⟩
  · rw [((C14_description _).2.2.2.2.2.1 _ _ _ hnew).2]
    decide
  · rw [((C14_description _).2.2.2.2.2.2 (fun _ => "ARRIVED")).2]
    decide

/-! ## Reading a priority -/

/-- C15: reading the token `overwrite` succeeds and sets the priority to `overwrite`; the
tokens `skip` and `parallel` throw `ImplementationFault` and every other token, the empty one
and other spellings included, throws `SyntaxError`, in both cases leaving the priority as it
was; the two errors differ. -/
theorem C15_extract (buffer : String) (priority : Priority) :
    (buffer = "overwrite" →
      Priority.extract buffer priority = (⟨Priority.value_type.overwrite⟩, Except.ok ())) ∧
    (buffer = "skip" ∨ buffer = "parallel" →
      Priority.extract buffer priority = (priority, Except.error Error.ImplementationFault)) ∧
    (buffer ≠ "overwrite" → buffer ≠ "skip" → buffer ≠ "parallel" →
      Priority.extract buffer priority = (priority, Except.error Error.SyntaxError)) ∧
    Priority.extract "" priority = (priority, Except.error Error.SyntaxError) ∧
    Priority.extract "Overwrite" priority = (priority, Except.error Error.SyntaxError) ∧
    Priority.extract "SKIP" priority = (priority, Except.error Error.SyntaxError) ∧
    Error.ImplementationFault ≠ Error.SyntaxError := by
  have hother : buffer ≠ "overwrite" → buffer ≠ "skip" → buffer ≠ "parallel" →
      Priority.extract buffer priority = (priority, Except.error Error.SyntaxError) := by
    intro h1 h2 h3
    simp [Priority.extract, h1, h2, h3]
  refine ⟨?_, ?_, hother, ?_, ?_, ?_, by decide⟩
  · intro h
    subst h
    simp [Priority.extract]
  · rintro (h | h)
    · subst h
      simp [Priority.extract]
    · subst h
      simp [Priority.extract]
  · simp [Priority.extract]
  · simp [Priority.extract]
  · simp [Priority.extract]

/-- C15 at the tokens `overwrite`, `skip`, `parallel` and `Parallel`, read into a priority
that holds `overwrite`. -/
theorem C15_extract_witness :
    Priority.extract "overwrite" ⟨Priority.value_type.overwrite⟩ =
      (⟨Priority.value_type.overwrite⟩, Except.ok ()) ∧
    Priority.extract "skip" ⟨Priority.value_type.overwrite⟩ =
      (⟨Priority.value_type.overwrite⟩, Except.error Error.ImplementationFault) ∧
    Priority.extract "parallel" ⟨Priority.value_type.overwrite⟩ =
      (⟨Priority.value_type.overwrite⟩, Except.error Error.ImplementationFault) ∧
    Priority.extract "Parallel" ⟨Priority.value_type.overwrite⟩ =
      (⟨Priority.value_type.overwrite⟩, Except.error Error.SyntaxError) :=
  ⟨(C15_extract "overwrite" ⟨Priority.value_type.overwrite⟩).1 rfl,
    (C15_extract "skip" ⟨Priority.value_type.overwrite⟩).2.1 (Or.inl rfl),
    (C15_extract "parallel" ⟨Priority.value_type.overwrite⟩).2.1 (Or.inr rfl),
    (C15_extract "Parallel" ⟨Priority.value_type.overwrite⟩).2.2.1 (by decide) (by decide)
      (by decide)⟩

/-! ## The arbitration pass -/

theorem set_getElem_self (scope : List Event) (i : Nat) (e a : Event) (hi : scope[i]? = some e) :
    (scope.set i a)[i]? = some a := by
  rw [List.getElem?_set', if_pos rfl, hi]
  rfl

theorem otherRunning_iff (scope : List Event) (i : Nat) :
    otherRunning scope i = true ↔
      ∃ j e, j ≠ i ∧ scope[j]? = some e ∧ e.state = EventState.running := by
  unfold otherRunning
  rw [List.any_eq_true]
  constructor
  · rintro ⟨e, he, hr⟩
    obtain ⟨j, hj, hje⟩ := List.mem_eraseIdx_iff_getElem?.mp he
    exact ⟨j, e, hj, hje, by simpa using hr⟩
  · rintro ⟨j, e, hj, hje, hr⟩
    exact ⟨e, List.mem_eraseIdx_iff_getElem?.mpr ⟨j, hj, hje⟩, by simpa using hr⟩

/-- An event that is not triggered leaves the scope as it is. -/
theorem arbitrate_not_triggered (scope : List Event) (i : Nat) (e : Event)
    (hi : scope[i]? = some e) (hs : e.state ≠ EventState.triggered) :
    arbitrate scope i = scope := by
  unfold arbitrate
  simp only [hi, if_neg hs]

theorem arbitrate_overwrite (scope : List Event) (i : Nat) (e : Event)
    (hi : scope[i]? = some e) (hs : e.state = EventState.triggered)
    (hp : e.priority = Priority.value_type.overwrite) :
    arbitrate scope i = (stopRunning scope).set i (e.withState EventState.running) := by
  unfold arbitrate
  simp only [hi, if_pos hs, hp]

theorem arbitrate_skip (scope : List Event) (i : Nat) (e : Event)
    (hi : scope[i]? = some e) (hs : e.state = EventState.triggered)
    (hp : e.priority = Priority.value_type.skip) :
    arbitrate scope i =
      if otherRunning scope i then scope.set i (e.withState EventState.idle)
      else scope.set i (e.withState EventState.running) := by
  unfold arbitrate
  simp only [hi, if_pos hs, hp]

theorem arbitrate_parallel (scope : List Event) (i : Nat) (e : Event)
    (hi : scope[i]? = some e) (hs : e.state = EventState.triggered)
    (hp : e.priority = Priority.value_type.parallel) :
    arbitrate scope i = scope.set i (e.withState EventState.running) := by
  unfold arbitrate
  simp only [hi, if_pos hs, hp]

/-- The event declared at position `k` is processed on the scope as the events declared before
it have left it. -/
theorem arbitrateUpTo_succ (scope : List Event) (k : Nat) :
    arbitrateUpTo scope (k + 1) = arbitrate (arbitrateUpTo scope k) k := by
  unfold arbitrateUpTo
  rw [List.range_succ, List.foldl_append]
  rfl

/-- C19: in the scope `A(overwrite), B(skip), C(parallel)`, all idle with true start
conditions, `A` is running when `B` is processed and the tick ends with `A` running, `B` idle
and `C` running.  Every event is processed on the scope as the earlier events have left it; a
triggered skip event stays idle exactly when another event of the scope is running at that
point and becomes running otherwise, a triggered parallel event becomes running, and neither
changes another event. -/
theorem C19_skip_and_parallel :
    states (arbitrateUpTo (markTriggered scopeABC) 1) =
      [EventState.running, EventState.triggered, EventState.triggered] ∧
    states (tick scopeABC) = [EventState.running, EventState.idle, EventState.running] ∧
    (∀ scope k, arbitrateUpTo scope (k + 1) = arbitrate (arbitrateUpTo scope k) k) ∧
    (∀ scope i e, scope[i]? = some e → e.state = EventState.triggered →
      e.priority = Priority.value_type.skip →
      ((arbitrate scope i)[i]? = some (e.withState EventState.idle) ↔
        ∃ j other, j ≠ i ∧ scope[j]? = some other ∧ other.state = EventState.running) ∧
      ((arbitrate scope i)[i]? = some (e.withState EventState.running) ↔
        ¬ ∃ j other, j ≠ i ∧ scope[j]? = some other ∧ other.state = EventState.running) ∧
      ∀ j, j ≠ i → (arbitrate scope i)[j]? = scope[j]?) ∧
    (∀ scope i e, scope[i]? = some e → e.state = EventState.triggered →
      e.priority = Priority.value_type.parallel →
      (arbitrate scope i)[i]? = some (e.withState EventState.running) ∧
      ∀ j, j ≠ i → (arbitrate scope i)[j]? = scope[j]?) := by
  refine ⟨by decide, by decide, arbitrateUpTo_succ, ?_, ?_⟩
  · intro scope i e hi hs hp
    rw [arbitrate_skip scope i e hi hs hp, ← otherRunning_iff]
    by_cases ho : otherRunning scope i = true
    · rw [if_pos ho]
      refine ⟨?_, ?_, fun j hj => List.getElem?_set_ne (Ne.symm hj)⟩
      · simp [set_getElem_self scope i e _ hi, ho]
      · simp [set_getElem_self scope i e _ hi, ho, Event.withState]
    · rw [if_neg ho]
      refine ⟨?_, ?_, fun j hj => List.getElem?_set_ne (Ne.symm hj)⟩
      · simp [set_getElem_self scope i e _ hi, ho, Event.withState]
      · simp [set_getElem_self scope i e _ hi, ho]
  · intro scope i e hi hs hp
    rw [arbitrate_parallel scope i e hi hs hp]
    exact ⟨set_getElem_self scope i e _ hi, fun j hj => List.getElem?_set_ne (Ne.symm hj)⟩

/-- What processing the event declared at position `k` does to the event at another position
`m`: a triggered overwrite event forces it to complete if it is running, and nothing else
changes it. -/
theorem arbitrate_other (scope : List Event) (k m : Nat) (e : Event) (hmk : m ≠ k)
    (hm : scope[m]? = some e) :
    ((∃ x, scope[k]? = some x ∧ x.state = EventState.triggered ∧
        x.priority = Priority.value_type.overwrite) →
      (arbitrate scope k)[m]? =
        some (if e.state = EventState.running then e.withState EventState.complete else e)) ∧
    ((¬ ∃ x, scope[k]? = some x ∧ x.state = EventState.triggered ∧
        x.priority = Priority.value_type.overwrite) →
      (arbitrate scope k)[m]? = some e) := by
  constructor
  · rintro ⟨x, hx, hs, hp⟩
    rw [arbitrate_overwrite scope k x hx hs hp, List.getElem?_set_ne (Ne.symm hmk)]
    simp [stopRunning, List.getElem?_map, hm]
  · intro hno
    cases hk : scope[k]? with
    | none =>
      unfold arbitrate
      simp only [hk]
      exact hm
    | some x =>
      by_cases hs : x.state = EventState.triggered
      · cases hp : x.priority with
        | overwrite => exact absurd ⟨x, hk, hs, hp⟩ hno
        | skip =>
          rw [arbitrate_skip scope k x hk hs hp]
          split <;> rw [List.getElem?_set_ne (Ne.symm hmk)] <;> exact hm
        | parallel =>
          rw [arbitrate_parallel scope k x hk hs hp, List.getElem?_set_ne (Ne.symm hmk)]
          exact hm
      · rw [arbitrate_not_triggered scope k x hk hs]
        exact hm

/-- What processing the event declared at position `k` does to that event. -/
theorem arbitrate_self (scope : List Event) (k : Nat) (e : Event) (hk : scope[k]? = some e) :
    ∃ after, (arbitrate scope k)[k]? = some after ∧ (∃ st, after = e.withState st) ∧
      (e.state ≠ EventState.triggered → after = e) ∧
      (e.state = EventState.triggered → after.state ≠ EventState.triggered) ∧
      (e.state = EventState.triggered → e.priority = Priority.value_type.overwrite →
        after = e.withState EventState.running) := by
  by_cases hs : e.state = EventState.triggered
  · cases hp : e.priority with
    | overwrite =>
      refine ⟨e.withState EventState.running, ?_, ⟨_, rfl⟩, fun h => absurd hs h,
        fun _ => by simp [Event.withState], fun _ _ => rfl⟩
      rw [arbitrate_overwrite scope k e hk hs hp]
      exact set_getElem_self _ k (if e.state = EventState.running then
        e.withState EventState.complete else e) _ (by simp [stopRunning, List.getElem?_map, hk])
    | skip =>
      rw [arbitrate_skip scope k e hk hs hp]
      by_cases ho : otherRunning scope k = true
      · rw [if_pos ho]
        exact ⟨_, set_getElem_self scope k e _ hk, ⟨_, rfl⟩, fun h => absurd hs h,
          fun _ => by simp [Event.withState], fun _ h => by cases h⟩
      · rw [if_neg ho]
        exact ⟨_, set_getElem_self scope k e _ hk, ⟨_, rfl⟩, fun h => absurd hs h,
          fun _ => by simp [Event.withState], fun _ h => by cases h⟩
    | parallel =>
      rw [arbitrate_parallel scope k e hk hs hp]
      exact ⟨_, set_getElem_self scope k e _ hk, ⟨_, rfl⟩, fun h => absurd hs h,
        fun _ => by simp [Event.withState], fun _ h => by cases h⟩
  · rw [arbitrate_not_triggered scope k e hk hs]
    exact ⟨e, hk, ⟨e.state, rfl⟩, fun _ => rfl, fun h => absurd h hs, fun h => absurd h hs⟩

/-- During the pass every event keeps all but its state, no event becomes triggered, and a
triggered event stays triggered until its turn. -/
theorem arbitrateUpTo_invariant (scope : List Event) :
    ∀ (t m : Nat) (e0 : Event), scope[m]? = some e0 →
      ∃ e, (arbitrateUpTo scope t)[m]? = some e ∧ (∃ st, e = e0.withState st) ∧
        (e.state = EventState.triggered → e0.state = EventState.triggered) ∧
        (t ≤ m → e0.state = EventState.triggered → e.state = EventState.triggered) := by
  intro t
  induction t with
  | zero =>
    intro m e0 hm
    exact ⟨e0, hm, ⟨e0.state, rfl⟩, fun h => h, fun _ h => h⟩
  | succ t ih =>
    intro m e0 hm
    obtain ⟨e, he, ⟨st, hst⟩, h1, h2⟩ := ih m e0 hm
    rw [arbitrateUpTo_succ]
    by_cases hmt : m = t
    · subst hmt
      obtain ⟨after, ha, ⟨st2, hst2⟩, a1, a2, _⟩ := arbitrate_self _ m e he
      refine ⟨after, ha, ⟨st2, by rw [hst2, hst]; rfl⟩, ?_, fun hle => by omega⟩
      intro hat
      by_cases hs : e.state = EventState.triggered
      · exact absurd hat (a2 hs)
      · rw [a1 hs] at hat
        exact absurd hat hs
    · obtain ⟨o1, o2⟩ := arbitrate_other _ t m e hmt he
      by_cases how : ∃ x, (arbitrateUpTo scope t)[t]? = some x ∧
          x.state = EventState.triggered ∧ x.priority = Priority.value_type.overwrite
      · by_cases hr : e.state = EventState.running
        · refine ⟨e.withState EventState.complete, by rw [o1 how, if_pos hr],
            ⟨_, by rw [hst]; rfl⟩, fun h => by simp [Event.withState] at h, ?_⟩
          intro hle h0
          have := h2 (by omega) h0
          rw [this] at hr
          cases hr
        · exact ⟨e, by rw [o1 how, if_neg hr], ⟨st, hst⟩, h1, fun hle => h2 (by omega)⟩
      · exact ⟨e, o2 how, ⟨st, hst⟩, h1, fun hle => h2 (by omega)⟩

theorem arbitrate_length (scope : List Event) (k : Nat) :
    (arbitrate scope k).length = scope.length := by
  cases hk : scope[k]? with
  | none =>
    unfold arbitrate
    simp only [hk]
  | some x =>
    by_cases hs : x.state = EventState.triggered
    · cases hp : x.priority with
      | overwrite =>
        rw [arbitrate_overwrite scope k x hk hs hp]
        simp [stopRunning]
      | skip =>
        rw [arbitrate_skip scope k x hk hs hp]
        split <;> simp
      | parallel =>
        rw [arbitrate_parallel scope k x hk hs hp]
        simp
    · rw [arbitrate_not_triggered scope k x hk hs]

theorem arbitrateUpTo_length (scope : List Event) :
    ∀ t, (arbitrateUpTo scope t).length = scope.length := by
  intro t
  induction t with
  | zero => rfl
  | succ t ih => rw [arbitrateUpTo_succ, arbitrate_length, ih]

/-- When its turn comes, a triggered event is still as it was marked. -/
theorem arbitrateUpTo_at_turn (scope : List Event) (k : Nat) (e0 : Event)
    (hk : scope[k]? = some e0) (hs : e0.state = EventState.triggered) :
    (arbitrateUpTo scope k)[k]? = some e0 := by
  obtain ⟨e, he, ⟨st, hst⟩, _, h2⟩ := arbitrateUpTo_invariant scope k k e0 hk
  have := h2 (le_refl k) hs
  rw [he, hst]
  rw [hst] at this
  simp only [Event.withState] at this
  rw [this, ← hs]
  rfl

/-- An event that is triggered with priority overwrite at its turn was marked so. -/
theorem overwrite_at_turn (scope : List Event) (k : Nat) (x : Event)
    (hx : (arbitrateUpTo scope k)[k]? = some x) (hs : x.state = EventState.triggered)
    (hp : x.priority = Priority.value_type.overwrite) :
    ∃ e0, scope[k]? = some e0 ∧ e0.state = EventState.triggered ∧
      e0.priority = Priority.value_type.overwrite := by
  have hlt : k < scope.length := by
    rw [← arbitrateUpTo_length scope k]
    exact (List.getElem?_eq_some.mp hx).1
  obtain ⟨e0, he0⟩ : ∃ e0, scope[k]? = some e0 := ⟨scope.get ⟨k, hlt⟩, by
    simp [List.getElem?_eq_getElem hlt]⟩
  obtain ⟨e, he, ⟨st, hst⟩, h1, _⟩ := arbitrateUpTo_invariant scope k k e0 he0
  rw [hx] at he
  simp only [Option.some.injEq] at he
  subst he
  refine ⟨e0, he0, h1 hs, ?_⟩
  rw [hst] at hp
  exact hp

/-- In a pass over a scope in which the events at positions `i < j` are triggered with priority
overwrite and no event declared after `j` is, the first is complete and the second is running
from the turn of `j` on. -/
theorem later_overwrite_wins (scope : List Event) (i j : Nat) (X Y : Event) (hij : i < j)
    (hX : scope[i]? = some X) (hY : scope[j]? = some Y)
    (hXs : X.state = EventState.triggered) (hXp : X.priority = Priority.value_type.overwrite)
    (hYs : Y.state = EventState.triggered) (hYp : Y.priority = Priority.value_type.overwrite)
    (hno : ∀ k e, j < k → scope[k]? = some e →
      ¬ (e.state = EventState.triggered ∧ e.priority = Priority.value_type.overwrite)) :
    ∀ d, (arbitrateUpTo scope (j + 1 + d))[i]? = some (X.withState EventState.complete) ∧
      (arbitrateUpTo scope (j + 1 + d))[j]? = some (Y.withState EventState.running) := by
  have stage1 : (arbitrateUpTo scope (i + 1))[i]? = some (X.withState EventState.running) := by
    obtain ⟨after, ha, _, _, _, a3⟩ :=
      arbitrate_self (arbitrateUpTo scope i) i X (arbitrateUpTo_at_turn scope i X hX hXs)
    rw [arbitrateUpTo_succ, ha, a3 hXs hXp]
  have stage2 : ∀ d, i + 1 + d ≤ j → ∃ st, (arbitrateUpTo scope (i + 1 + d))[i]? =
      some (X.withState st) ∧ (st = EventState.running ∨ st = EventState.complete) := by
    intro d
    induction d with
    | zero => intro _; exact ⟨_, stage1, Or.inl rfl⟩
    | succ d ih =>
      intro hle
      obtain ⟨st, hst, hor⟩ := ih (by omega)
      obtain ⟨o1, o2⟩ := arbitrate_other (arbitrateUpTo scope (i + 1 + d)) (i + 1 + d) i
        (X.withState st) (by omega) hst
      rw [← Nat.add_assoc, arbitrateUpTo_succ]
      by_cases how : ∃ x, (arbitrateUpTo scope (i + 1 + d))[i + 1 + d]? = some x ∧
          x.state = EventState.triggered ∧ x.priority = Priority.value_type.overwrite
      · rw [o1 how]
        rcases hor with h | h
        · subst h
          exact ⟨EventState.complete, by simp [Event.withState], Or.inr rfl⟩
        · subst h
          exact ⟨EventState.complete, by simp [Event.withState], Or.inr rfl⟩
      · exact ⟨st, o2 how, hor⟩
  obtain ⟨st, hst, hor⟩ := stage2 (j - (i + 1)) (by omega)
  have hji : i + 1 + (j - (i + 1)) = j := by omega
  rw [hji] at hst
  have hYturn := arbitrateUpTo_at_turn scope j Y hY hYs
  intro d
  induction d with
  | zero =>
    rw [Nat.add_zero, arbitrateUpTo_succ]
    obtain ⟨after, ha, _, _, _, a3⟩ := arbitrate_self (arbitrateUpTo scope j) j Y hYturn
    obtain ⟨o1, _⟩ := arbitrate_other (arbitrateUpTo scope j) j i (X.withState st) (by omega) hst
    refine ⟨?_, by rw [ha, a3 hYs hYp]⟩
    rw [o1 ⟨Y, hYturn, hYs, hYp⟩]
    rcases hor with h | h
    · subst h
      simp [Event.withState]
    · subst h
      simp [Event.withState]
  | succ d ih =>
    obtain ⟨hi, hj⟩ := ih
    rw [← Nat.add_assoc, arbitrateUpTo_succ]
    have how : ¬ ∃ x, (arbitrateUpTo scope (j + 1 + d))[j + 1 + d]? = some x ∧
        x.state = EventState.triggered ∧ x.priority = Priority.value_type.overwrite := by
      rintro ⟨x, hx, hs, hp⟩
      obtain ⟨e0, h0, h1, h2⟩ := overwrite_at_turn scope (j + 1 + d) x hx hs hp
      exact hno (j + 1 + d) e0 (by omega) h0 ⟨h1, h2⟩
    exact ⟨(arbitrate_other _ (j + 1 + d) i _ (by omega) hi).2 how,
      (arbitrate_other _ (j + 1 + d) j _ (by omega) hj).2 how⟩

theorem markTriggered_getElem (scope : List Event) (m : Nat) (e : Event)
    (h : scope[m]? = some e) :
    (markTriggered scope)[m]? =
      some (if e.state = EventState.idle ∧ e.start_condition = true then
        e.withState EventState.triggered else e) := by
  simp [markTriggered, List.getElem?_map, h]

/-- C20: in a scope where the overwrite events `X`, declared at position `i`, and `Y`, declared
at a later position `j`, are idle with true start conditions, and no overwrite event declared
after `Y` triggers in the tick (as when `X` and `Y` are the only ones that do), the tick ends
with `X` complete and `Y` running.  A triggered overwrite event becomes running and forces to
complete every event of the scope that is running when it is processed. -/
theorem C20_later_overwrite_wins (scope : List Event) (i j : Nat) (X Y : Event) (hij : i < j)
    (hX : scope[i]? = some X) (hY : scope[j]? = some Y)
    (hXp : X.priority = Priority.value_type.overwrite) (hXs : X.state = EventState.idle)
    (hXc : X.start_condition = true)
    (hYp : Y.priority = Priority.value_type.overwrite) (hYs : Y.state = EventState.idle)
    (hYc : Y.start_condition = true)
    (hno : ∀ k e, j < k → scope[k]? = some e → e.priority = Priority.value_type.overwrite →
      ¬ ((e.state = EventState.idle ∧ e.start_condition = true) ∨
        e.state = EventState.triggered)) :
    (tick scope)[i]? = some (X.withState EventState.complete) ∧
    (tick scope)[j]? = some (Y.withState EventState.running) ∧
    (∀ (sc : List Event) (k : Nat) (Z : Event), sc[k]? = some Z →
      Z.state = EventState.triggered → Z.priority = Priority.value_type.overwrite →
      (arbitrate sc k)[k]? = some (Z.withState EventState.running) ∧
      ∀ m e, m ≠ k → sc[m]? = some e → e.state = EventState.running →
        (arbitrate sc k)[m]? = some (e.withState EventState.complete)) := by
  have hX2 : (markTriggered scope)[i]? = some (X.withState EventState.triggered) := by
    rw [markTriggered_getElem scope i X hX, if_pos ⟨hXs, hXc⟩]
  have hY2 : (markTriggered scope)[j]? = some (Y.withState EventState.triggered) := by
    rw [markTriggered_getElem scope j Y hY, if_pos ⟨hYs, hYc⟩]
  have hno2 : ∀ k e, j < k → (markTriggered scope)[k]? = some e →
      ¬ (e.state = EventState.triggered ∧ e.priority = Priority.value_type.overwrite) := by
    intro k e hk he ⟨h1, h2⟩
    have hlt : k < scope.length := by
      have := (List.getElem?_eq_some.mp he).1
      simpa [markTriggered] using this
    obtain ⟨e0, he0⟩ : ∃ e0, scope[k]? = some e0 := ⟨scope.get ⟨k, hlt⟩, by
      simp [List.getElem?_eq_getElem hlt]⟩
    rw [markTriggered_getElem scope k e0 he0] at he
    simp only [Option.some.injEq] at he
    by_cases hc : e0.state = EventState.idle ∧ e0.start_condition = true
    · rw [if_pos hc] at he
      rw [← he] at h2
      exact hno k e0 hk he0 h2 (Or.inl hc)
    · rw [if_neg hc] at he
      rw [← he] at h1 h2
      exact hno k e0 hk he0 h2 (Or.inr h1)
  have hlen : j < (markTriggered scope).length := (List.getElem?_eq_some.mp hY2).1
  have key := later_overwrite_wins (markTriggered scope) i j _ _ hij hX2 hY2 rfl hXp rfl hYp
    hno2 ((markTriggered scope).length - (j + 1))
  have hj : j + 1 + ((markTriggered scope).length - (j + 1)) = (markTriggered scope).length := by
    omega
  rw [hj] at key
  refine ⟨key.1, key.2, ?_⟩
  intro sc k Z hZ hs hp
  obtain ⟨after, ha, _, _, _, a3⟩ := arbitrate_self sc k Z hZ
  refine ⟨by rw [ha, a3 hs hp], ?_⟩
  intro m e hm he hr
  rw [(arbitrate_other sc k m e hm he).1 ⟨Z, hZ, hs, hp⟩, if_pos hr]

/-- C20 on the scope `X(overwrite), Y(overwrite)`, both idle with true start conditions: the
tick ends with `X` complete and `Y` running. -/
theorem C20_later_overwrite_wins_witness :
    (tick scopeXY)[0]? = some ⟨"X", Priority.value_type.overwrite, true, EventState.complete⟩ ∧
    (tick scopeXY)[1]? = some ⟨"Y", Priority.value_type.overwrite, true, EventState.running⟩ ∧
    states (tick scopeXY) = [EventState.complete, EventState.running] := by
  have h := C20_later_overwrite_wins scopeXY 0 1
    ⟨"X", Priority.value_type.overwrite, true, EventState.idle⟩
    ⟨"Y", Priority.value_type.overwrite, true, EventState.idle⟩ (by decide) rfl rfl rfl rfl rfl
    rfl rfl rfl (by
      intro k e hk he
      have : scopeXY[k]? = none := by
        apply List.getElem?_eq_none
        simp only [scopeXY, List.length_cons, List.length_nil]
        omega
      rw [this] at he
      cases he)
  exact ⟨h.1, h.2.1, by decide⟩

end openscenario_interpreter

/-!
# Theorems on `traffic_simulator`
-/

namespace traffic_simulator
namespace math

open simulation_api.math (Point)

/-- The rotation matrix of a non-zero quaternion is orthogonal. -/
theorem setRotation_orthogonal (q : Quaternion)
    (hd : q.x * q.x + q.y * q.y + q.z * q.z + q.w * q.w ≠ 0) :
    (Matrix3x3.setRotation q).transpose.mul (Matrix3x3.setRotation q) =
      ⟨⟨1, 0, 0⟩, ⟨0, 1, 0⟩, ⟨0, 0, 1⟩⟩ := by
  have hs : 2 / (q.x * q.x + q.y * q.y + q.z * q.z + q.w * q.w) *
      (q.x * q.x + q.y * q.y + q.z * q.z + q.w * q.w) = 2 := div_mul_cancel₀ 2 hd
  simp only [Matrix3x3.setRotation, Matrix3x3.transpose, Matrix3x3.mul, Vector3.dot,
    Matrix3x3.mk.injEq, Vector3.mk.injEq]
  generalize 2 / (q.x * q.x + q.y * q.y + q.z * q.z + q.w * q.w) = s at hs ⊢
  refine ⟨⟨?_, ?_, ?_⟩, ⟨?_, ?_, ?_⟩, ⟨?_, ?_, ?_⟩⟩
  · linear_combination (s * (q.y * q.y + q.z * q.z)) * hs
  · linear_combination (-s * (q.x * q.y)) * hs
  · linear_combination (-s * (q.x * q.z)) * hs
  · linear_combination (-s * (q.x * q.y)) * hs
  · linear_combination (s * (q.x * q.x + q.z * q.z)) * hs
  · linear_combination (-s * (q.y * q.z)) * hs
  · linear_combination (-s * (q.x * q.z)) * hs
  · linear_combination (-s * (q.y * q.z)) * hs
  · linear_combination (s * (q.x * q.x + q.y * q.y)) * hs

theorem tf2Sqrt_four : tf2Sqrt 4 = 2 := by
  have h := Rat.sqrt_eq 2
  have e : (2 : ℚ) * 2 = 4 := by norm_num
  rw [e] at h
  rw [tf2Sqrt, h]
  exact abs_of_pos (by norm_num)

theorem getRotation_identity :
    Matrix3x3.getRotation ⟨⟨1, 0, 0⟩, ⟨0, 1, 0⟩, ⟨0, 0, 1⟩⟩ = ⟨0, 0, 0, 1⟩ := by
  simp only [Matrix3x3.getRotation, Matrix3x3.el]
  norm_num [tf2Sqrt_four]

/-- The inverse of a transform applied to the origin of that transform is the zero vector. -/
theorem inverse_applyTo_origin (t : Transform) : t.inverse.applyTo t.m_origin = ⟨0, 0, 0⟩ := by
  simp only [Transform.inverse, Transform.applyTo, Matrix3x3.mulVec, Matrix3x3.transpose,
    Vector3.dot, Vector3.mk.injEq]
  refine ⟨?_, ?_, ?_⟩ <;> ring

/-- C16: for every pose whose orientation is a unit quaternion, `getRelativePose(P, P)` is the
identity pose: position `(0,0,0)` and orientation `(0,0,0,1)`. -/
theorem C16_relative_pose_of_self (P : Pose)
    (hunit : P.orientation.x * P.orientation.x + P.orientation.y * P.orientation.y +
      P.orientation.z * P.orientation.z + P.orientation.w * P.orientation.w = 1) :
    getRelativePose P P = identityPose := by
  have hd : P.orientation.x * P.orientation.x + P.orientation.y * P.orientation.y +
      P.orientation.z * P.orientation.z + P.orientation.w * P.orientation.w ≠ 0 := by
    rw [hunit]
    norm_num
  have hb := setRotation_orthogonal P.orientation hd
  have ho := inverse_applyTo_origin
    (fromMsg ⟨⟨P.position.x, P.position.y, P.position.z⟩, P.orientation⟩)
  simp only [getRelativePose, toMsg, Transform.mul, ho]
  simp only [fromMsg, Transform.inverse, hb, getRotation_identity]
  rfl

/-- C16 at the pose with position `(1,2,3)` and orientation `(3/5, 0, 4/5, 0)`. -/
theorem C16_relative_pose_of_self_witness :
    getRelativePose ⟨⟨1, 2, 3⟩, ⟨3 / 5, 0, 4 / 5, 0⟩⟩ ⟨⟨1, 2, 3⟩, ⟨3 / 5, 0, 4 / 5, 0⟩⟩ =
      identityPose :=
  C16_relative_pose_of_self ⟨⟨1, 2, 3⟩, ⟨3 / 5, 0, 4 / 5, 0⟩⟩ (by norm_num)

/-- C17: `transformPoint` is the rotation matrix of the orientation applied to the point, plus
the position, coordinate by coordinate; for the identity pose the result is the point. -/
theorem C17_transformPoint_identity (pose : Pose) (p : Point) :
    transformPoint pose p =
      ⟨((getRotationMatrix pose.orientation).mulVec ⟨p.x, p.y, p.z⟩).x + pose.position.x,
        ((getRotationMatrix pose.orientation).mulVec ⟨p.x, p.y, p.z⟩).y + pose.position.y,
        ((getRotationMatrix pose.orientation).mulVec ⟨p.x, p.y, p.z⟩).z + pose.position.z⟩ ∧
    getRotationMatrix identityPose.orientation = ⟨⟨1, 0, 0⟩, ⟨0, 1, 0⟩, ⟨0, 0, 1⟩⟩ ∧
    transformPoint identityPose p = p := by
  refine ⟨rfl, ?_, ?_⟩
  · norm_num [getRotationMatrix, identityPose]
  · cases p
    norm_num [transformPoint, getRotationMatrix, identityPose, Matrix3x3.mulVec, Vector3.dot]

theorem transformPoints_loop (pose : Pose) (points : List Point) :
    ∀ ret : List Point,
      points.foldl (fun ret point => ret ++ [transformPoint pose point]) ret =
        ret ++ points.map (transformPoint pose) := by
  induction points with
  | nil => intro ret; simp
  | cons a rest ih =>
    intro ret
    simp only [List.foldl_cons, List.map_cons, ih]
    simp

/-- C18: `transformPoints` returns as many points as it is given, the point at every index is
`transformPoint` of the point given at that index, and the empty list gives the empty list. -/
theorem C18_transformPoints (pose : Pose) (points : List Point) :
    (transformPoints pose points).length = points.length ∧
    (∀ i : Nat, (transformPoints pose points)[i]? = (points[i]?).map (transformPoint pose)) ∧
    transformPoints pose points = points.map (transformPoint pose) ∧
    transformPoints pose [] = [] := by
  have h : transformPoints pose points = points.map (transformPoint pose) := by
    unfold transformPoints
    rw [transformPoints_loop]
    simp
  refine ⟨by rw [h, List.length_map], fun i => by rw [h, List.getElem?_map], h, rfl⟩

end math
end traffic_simulator

/-!
# Theorems on the shape of the spline segments
-/

namespace simulation_api
namespace math

/-- The definition of `derivative` is the first-order term of the cubic. -/
theorem derivative_spec (c : HermiteCurve) (t h : ℚ) :
    c.getPoint (t + h) =
      ⟨(c.getPoint t).x + h * (c.derivative t).x + h ^ 2 * (3 * c.ax_ * t + c.bx_ + c.ax_ * h),
        (c.getPoint t).y + h * (c.derivative t).y + h ^ 2 * (3 * c.ay_ * t + c.by_ + c.ay_ * h),
        (c.getPoint t).z + h * (c.derivative t).z +
          h ^ 2 * (3 * c.az_ * t + c.bz_ + c.az_ * h)⟩ := by
  simp only [HermiteCurve.getPoint, HermiteCurve.derivative, Point.mk.injEq]
  refine ⟨?_, ?_, ?_⟩ <;> ring

end math
end simulation_api

/-!
# Theorems on `autoware_api::Accessor`
-/

namespace autoware_api

/-- The method `isReady` returns, and leaves in the static variable, the disjunction of the
variable and `isWaitingForRoute()`. -/
theorem isReady_eq (K : AutowareState) (a : Accessor) (ready : Bool) :
    a.isReady K ready =
      (ready || a.isWaitingForRoute K, ready || a.isWaitingForRoute K) := by
  cases ready <;> simp [Accessor.isReady]

theorem checkAutowareState_ready (K : AutowareState) (a : Accessor) (ready : Bool) :
    (a.checkAutowareState K ready).2 = (ready || a.isWaitingForRoute K) := by
  unfold Accessor.checkAutowareState
  simp only [isReady_eq]
  split <;> rfl

theorem checkAutowareState_throws_iff (K : AutowareState) (a : Accessor) (ready : Bool) :
    (a.checkAutowareState K ready).1 = Except.error AutowareError.mk ↔
      (a.isReady K ready).1 = true ∧ a.autoware_state = K.EMERGENCY := by
  unfold Accessor.checkAutowareState
  simp only [isReady_eq]
  by_cases h : ((ready || a.isWaitingForRoute K) && a.isEmergency K) = true
  · rw [if_pos h]
    simp only [Bool.and_eq_true, Accessor.isEmergency, beq_iff_eq] at h
    simp [h.1, h.2]
  · rw [if_neg h]
    simp only [Bool.and_eq_true, Accessor.isEmergency, beq_iff_eq] at h
    constructor
    · intro e
      cases e
    · intro e
      exact absurd e h

theorem run_length (K : AutowareState) (statuses : List String) :
    ∀ ready, (run K ready statuses).length = statuses.length := by
  induction statuses with
  | nil => intro ready; rfl
  | cons s rest ih =>
    intro ready
    simp only [run, List.length_cons, ih]

/-- The records of a run that starts with the static variable `ready`. -/
theorem run_spec (K : AutowareState) (statuses : List String) :
    ∀ (ready : Bool) (k : Nat) (r : Bool) (o : Except AutowareError Unit),
      (run K ready statuses)[k]? = some (r, o) →
      (r = true ↔ ready = true ∨ ∃ j, j ≤ k ∧ statuses[j]? = some K.WAITING_FOR_ROUTE) ∧
      (o = Except.error AutowareError.mk ↔ r = true ∧ statuses[k]? = some K.EMERGENCY) := by
  induction statuses with
  | nil =>
    intro ready k r o h
    simp [run] at h
  | cons s rest ih =>
    intro ready k r o h
    cases k with
    | zero =>
      simp only [run, List.getElem?_cons_zero, Option.some.injEq, Prod.mk.injEq] at h
      obtain ⟨h1, h2⟩ := h
      constructor
      · rw [← h1, isReady_eq]
        simp only [Bool.or_eq_true, Accessor.isWaitingForRoute, beq_iff_eq]
        constructor
        · rintro (hr | hs)
          · exact Or.inl hr
          · exact Or.inr ⟨0, le_refl 0, by simp [hs]⟩
        · rintro (hr | ⟨j, hj, hs⟩)
          · exact Or.inl hr
          · have : j = 0 := by omega
            subst this
            simp only [List.getElem?_cons_zero, Option.some.injEq] at hs
            exact Or.inr hs
      · rw [← h2, ← h1, checkAutowareState_throws_iff]
        simp
    | succ k =>
      simp only [run, List.getElem?_cons_succ] at h
      obtain ⟨ih1, ih2⟩ := ih _ k r o h
      rw [checkAutowareState_ready] at ih1
      constructor
      · rw [ih1]
        simp only [Bool.or_eq_true, Accessor.isWaitingForRoute, beq_iff_eq]
        constructor
        · rintro ((hr | hs) | ⟨j, hj, hs⟩)
          · exact Or.inl hr
          · exact Or.inr ⟨0, Nat.zero_le _, by simp [hs]⟩
          · exact Or.inr ⟨j + 1, by omega, by simpa using hs⟩
        · rintro (hr | ⟨j, hj, hs⟩)
          · exact Or.inl (Or.inl hr)
          · cases j with
            | zero =>
              simp only [List.getElem?_cons_zero, Option.some.injEq] at hs
              exact Or.inl (Or.inr hs)
            | succ j =>
              simp only [List.getElem?_cons_succ] at hs
              exact Or.inr ⟨j, by omega, hs⟩
      · rw [ih2]
        simp

/-- C24: when `checkAutowareState` is called once per status of a sequence, starting with the
static variable `false`, there is one record per status; the value `isReady` returns at step
`k` is true exactly when the status of some step `j ≤ k` was `WAITING_FOR_ROUTE`, so it never
goes back to false; `checkAutowareState` throws at step `k` exactly when the status of step `k`
is `EMERGENCY` and the status of some step `j < k` was `WAITING_FOR_ROUTE`.  The static
variable belongs to no accessor: once a call on one accessor has set it, a call on another
accessor whose status is `EMERGENCY` throws, and without it that call does not throw. -/
theorem C24_readiness_latch (K : AutowareState) (hne : K.WAITING_FOR_ROUTE ≠ K.EMERGENCY)
    (statuses : List String) :
    (run K false statuses).length = statuses.length ∧
    (∀ (k : Nat) (r : Bool) (o : Except AutowareError Unit),
      (run K false statuses)[k]? = some (r, o) →
      (r = true ↔ ∃ j : Nat, j ≤ k ∧ statuses[j]? = some K.WAITING_FOR_ROUTE) ∧
      (o = Except.error AutowareError.mk ↔
        statuses[k]? = some K.EMERGENCY ∧
        ∃ j : Nat, j < k ∧ statuses[j]? = some K.WAITING_FOR_ROUTE)) ∧
    (∀ (k m : Nat) (r : Bool) (o : Except AutowareError Unit) (r2 : Bool)
        (o2 : Except AutowareError Unit), k ≤ m →
      (run K false statuses)[k]? = some (r, o) →
      (run K false statuses)[m]? = some (r2, o2) → r = true → r2 = true) ∧
    (∀ a b : Accessor, a.autoware_state = K.WAITING_FOR_ROUTE →
      b.autoware_state = K.EMERGENCY →
      (b.checkAutowareState K (a.isReady K false).2).1 = Except.error AutowareError.mk ∧
      (b.checkAutowareState K false).1 = Except.ok ()) := by
  have hspec : ∀ (k : Nat) (r : Bool) (o : Except AutowareError Unit),
      (run K false statuses)[k]? = some (r, o) →
      (r = true ↔ ∃ j : Nat, j ≤ k ∧ statuses[j]? = some K.WAITING_FOR_ROUTE) ∧
      (o = Except.error AutowareError.mk ↔ r = true ∧ statuses[k]? = some K.EMERGENCY) := by
    intro k r o h
    obtain ⟨h1, h2⟩ := run_spec K statuses false k r o h
    refine ⟨?_, h2⟩
    rw [h1]
    simp
  refine ⟨run_length K statuses false, ?_, ?_, ?_⟩
  · intro k r o h
    obtain ⟨h1, h2⟩ := hspec k r o h
    refine ⟨h1, ?_⟩
    rw [h2, h1]
    constructor
    · rintro ⟨⟨j, hj, hs⟩, he⟩
      refine ⟨he, j, ?_, hs⟩
      rcases Nat.lt_or_eq_of_le hj with hlt | heq
      · exact hlt
      · subst heq
        rw [hs] at he
        exact absurd (Option.some.inj he) hne
    · rintro ⟨he, j, hj, hs⟩
      exact ⟨⟨j, by omega, hs⟩, he⟩
  · intro k m r o r2 o2 hkm h1 h2 hr
    obtain ⟨j, hj, hs⟩ := (hspec k r o h1).1.mp hr
    exact (hspec m r2 o2 h2).1.mpr ⟨j, by omega, hs⟩
  · intro a b ha hb
    constructor
    · rw [checkAutowareState_throws_iff]
      simp [isReady_eq, Accessor.isWaitingForRoute, ha, hb]
    · cases hc : (b.checkAutowareState K false).1 with
      | ok u => rfl
      | error e =>
        cases e
        have := (checkAutowareState_throws_iff K b false).mp hc
        simp only [isReady_eq, Bool.false_or, Accessor.isWaitingForRoute, beq_iff_eq] at this
        rw [this.2] at this
        exact absurd this.1.symm hne

/-- C24 on the status sequence `Emergency, Planning, WaitingForRoute, Driving, Emergency`: the
first `Emergency` does not throw, readiness is latched at the third status and stays, and the
last `Emergency` throws. -/
theorem C24_readiness_latch_witness :
    run autowareStateNames false
        ["Emergency", "Planning", "WaitingForRoute", "Driving", "Emergency"] =
      [(false, Except.ok ()), (false, Except.ok ()), (true, Except.ok ()),
        (true, Except.ok ()), (true, Except.error AutowareError.mk)] ∧
    (run autowareStateNames false
        ["Emergency", "Planning", "WaitingForRoute", "Driving", "Emergency"]).length = 5 :=
  ⟨by simp [run, Accessor.isReady, Accessor.checkAutowareState, Accessor.isWaitingForRoute,
      Accessor.isEmergency, autowareStateNames],
    (C24_readiness_latch autowareStateNames (by decide)
      ["Emergency", "Planning", "WaitingForRoute", "Driving", "Emergency"]).1⟩

end autoware_api
